import Mathlib

/-!
# Verification of the rain-gauge status/extraction pipeline

Shallow embedding of the parsing and status-reconciliation core of `main.py`
(the `_tokenize_args` / `_clean_str` / `_try_num` / `_parse_options` /
`_parse_info_html` / `parse_status_from_icon` / `determine_status_by_timestamp` /
`determine_final_status` / `parse_setmap_from_html` / `_parse_date` /
`clean_data` / `_to_mm` functions), together with theorems settling the
frozen claims about it.

Modelling conventions:
* Python strings are Lean `String` / `List Char`; only ASCII case folding and
  ASCII whitespace are modelled (the portal data is ASCII).
* Python `float` is modelled by exact rationals (`Rat`) plus the special
  values `inf`/`-inf`/`nan`; every numeric literal exercised by the claims is
  exactly representable, so no IEEE rounding is observable here.
* Python exceptions that can escape a core function are modelled with
  `Except String`; an exhausted `try/except` inside a function is modelled by
  the fallback value the code returns.
* `datetime.now(timezone.utc)` is modelled by an explicit `now : Int`
  parameter counting seconds on the proleptic-Gregorian scale used by
  `toordinal`.
-/

namespace RainGauge

/-! ## Python string primitives -/

/-- ASCII whitespace as recognised by Python's `str.strip` / `\s`. -/
def wsChar (c : Char) : Bool :=
  c = ' ' || c = '\t' || c = '\n' || c = '\r' || c = '\x0b' || c = '\x0c'

/-- Python `str.strip()` on a character list. -/
def pyStripL (cs : List Char) : List Char :=
  ((cs.dropWhile wsChar).reverse.dropWhile wsChar).reverse

/-- Python `str.strip()`. -/
def pyStrip (s : String) : String := ⟨pyStripL s.data⟩

/-- Python `str.lower()` (ASCII). -/
def lowerL (cs : List Char) : List Char := cs.map Char.toLower

/-- Python `str.upper()` (ASCII). -/
def upperL (cs : List Char) : List Char := cs.map Char.toUpper

/-- ASCII decimal digit. -/
def digChar (c : Char) : Bool := '0' ≤ c ∧ c ≤ '9'

/-- Python `str.isdigit()` (ASCII digits; the portal emits only ASCII). -/
def isdigitL (cs : List Char) : Bool := cs ≠ [] && cs.all digChar

/-- Numeric value of an all-digit character list. -/
def digitsToNat (cs : List Char) : Nat :=
  cs.foldl (fun a c => a * 10 + (c.toNat - 48)) 0

/-- Python substring containment (`sub in big`). -/
def containsSub (sub : List Char) : List Char → Bool
  | [] => sub = []
  | c :: rest => (List.take sub.length (c :: rest) = sub) || containsSub sub rest

/-- `sub in big` on `String`s. -/
def strContains (big sub : String) : Bool := containsSub sub.data big.data

/-! ## Python values

`PyScalar` is the type of values produced by numeric coercion (`_try_num`):
the option-literal dictionaries built by `_parse_options` only ever hold such
scalars, so `PyValue` dictionaries are maps to scalars and the types stay
non-recursive. -/

/-- Python float: exact rationals plus the special values. -/
inductive PyFloat where
  | finite (q : Rat)
  | inf
  | ninf
  | nan
deriving DecidableEq, Repr

/-- A scalar Python value (result of `_try_num`). -/
inductive PyScalar where
  | str (s : String)
  | int (n : Int)
  | float (f : PyFloat)
deriving DecidableEq, Repr

/-- A Python value as produced by the SetMap argument parser. -/
inductive PyValue where
  | str (s : String)
  | int (n : Int)
  | float (f : PyFloat)
  | dict (entries : List (String × PyScalar))
  | none
deriving DecidableEq, Repr

/-- Python truthiness of a float. -/
def PyFloat.truthy : PyFloat → Bool
  | .finite q => q ≠ 0
  | _ => true

/-- Python truthiness of a scalar. -/
def PyScalar.truthy : PyScalar → Bool
  | .str s => s ≠ ""
  | .int n => n ≠ 0
  | .float f => f.truthy

/-- Python truthiness of a value. -/
def PyValue.truthy : PyValue → Bool
  | .str s => s ≠ ""
  | .int n => n ≠ 0
  | .float f => f.truthy
  | .dict d => d ≠ []
  | .none => false

/-- Truthiness of `station.get(k)`: a missing key is falsy. -/
def optTruthy : Option PyValue → Bool
  | Option.none => false
  | Option.some v => v.truthy

/-- Rendering of a float, standing in for CPython's `repr`.  In the pipeline
`str()` of a float is only ever compared with the keyword `"lat"` and
searched for alphabetic status keywords, and this rendering contains the same
digits/sign/periods as CPython's, so the abstraction is not observable. -/
def PyFloat.render : PyFloat → String
  | .finite q => if q.den = 1 then toString q.num ++ ".0" else toString q.num ++ "/" ++ toString q.den
  | .inf => "inf"
  | .ninf => "-inf"
  | .nan => "nan"

/-- Python `str()` of a scalar. -/
def PyScalar.render : PyScalar → String
  | .str s => s
  | .int n => toString n
  | .float f => f.render

/-- Python `str()` of a value (dictionaries render as `{'k': v, ...}`). -/
def PyValue.render : PyValue → String
  | .str s => s
  | .int n => toString n
  | .float f => f.render
  | .dict d =>
      "\x7b" ++ String.intercalate ", "
        (d.map (fun p => "'" ++ p.1 ++ "': " ++ p.2.render)) ++ "\x7d"
  | .none => "None"

/-! ## `_tokenize_args` (main.py lines 81-122)

Character-by-character scan with three exclusive states (top level, inside a
quoted string, inside a brace literal with a depth counter).  A top-level
comma emits the current token (stripped, dropped when empty); a quote closes
its string only when the previous character is not a backslash. -/

/-- Worker for `_tokenize_args`.  `state` is `none` (top level), `some '"'` or
`some '\''` (inside that quote), or `some '{'` (inside braces at `depth`);
`prev` is the previously scanned character (`s[i-1]`); `cur` is the current
token reversed; `acc` is the emitted tokens reversed. -/
def tokAux : List Char → Option Char → Nat → Option Char → List Char →
    List (List Char) → List (List Char)
  | [], _, _, _, cur, acc =>
      let t := pyStripL cur.reverse
      (if t = [] then acc else t :: acc).reverse
  | c :: rest, state, depth, prev, cur, acc =>
      match state with
      | Option.none =>
          if c = '"' ∨ c = '\'' then
            tokAux rest (some c) depth (some c) (c :: cur) acc
          else if c = '{' then
            tokAux rest (some '{') 1 (some c) (c :: cur) acc
          else if c = ',' then
            let t := pyStripL cur.reverse
            tokAux rest Option.none depth (some c) []
              (if t = [] then acc else t :: acc)
          else
            tokAux rest Option.none depth (some c) (c :: cur) acc
      | Option.some q =>
          if q = '{' then
            let depth' := if c = '{' then depth + 1
              else if c = '}' then depth - 1 else depth
            tokAux rest (if depth' = 0 then Option.none else some '{') depth'
              (some c) (c :: cur) acc
          else
            if c = q ∧ prev ≠ some '\\' then
              tokAux rest Option.none depth (some c) (c :: cur) acc
            else
              tokAux rest (some q) depth (some c) (c :: cur) acc

/-- `_tokenize_args`: split an argument string into top-level tokens. -/
def _tokenize_args (s : String) : List String :=
  (tokAux s.data Option.none 0 Option.none [] []).map String.mk

/-! ## `_clean_str` and `_try_num` (main.py lines 124-137) -/

/-- Python `str.replace` for a two-character pattern replaced by one character
(left-to-right, non-overlapping), as used for unescaping `\'` and `\"`. -/
def replace2F (p1 p2 r : Char) : Nat → List Char → List Char
  | _, [] => []
  | _ + 1, [c1] => [c1]
  | fuel + 1, c1 :: c2 :: rest =>
      if c1 = p1 ∧ c2 = p2 then r :: replace2F p1 p2 r fuel rest
      else c1 :: replace2F p1 p2 r fuel (c2 :: rest)
  | 0, cs => cs

/-- Entry point: every step consumes at least one character, so a fuel of
the list length makes the worker total and structurally recursive. -/
def replace2 (p1 p2 r : Char) (cs : List Char) : List Char :=
  replace2F p1 p2 r cs.length cs

/-- `_clean_str`: strip, and if the token is quote-delimited drop the quotes
and unescape `\'` then `\"`. -/
def _clean_str (tok : String) : String :=
  let cs := pyStripL tok.data
  if (cs.head? = some '\'' ∧ cs.getLast? = some '\'') ∨
     (cs.head? = some '"' ∧ cs.getLast? = some '"') then
    ⟨replace2 '\\' '"' '"' (replace2 '\\' '\'' '\'' ((cs.drop 1).dropLast))⟩
  else ⟨cs⟩

/-- Grab a run of digits allowing single underscores between digits, as
Python's numeric parser does; returns the digits and the rest. -/
def grabDigitsUF : Nat → List Char → (List Char × List Char)
  | _, [] => ([], [])
  | _ + 1, [c] => if digChar c then ([c], []) else ([], [c])
  | fuel + 1, c :: c2 :: rest =>
      if digChar c then
        if c2 = '_' then
          match rest with
          | [] => ([c], [c2])
          | d :: rest2 =>
              if digChar d then
                let p := grabDigitsUF fuel (d :: rest2)
                (c :: p.1, p.2)
              else ([c], c2 :: d :: rest2)
        else
          let p := grabDigitsUF fuel (c2 :: rest)
          (c :: p.1, p.2)
      else ([], c :: c2 :: rest)
  | 0, cs => ([], cs)

/-- Entry point with fuel bounded by the length (always sufficient). -/
def grabDigitsU (cs : List Char) : (List Char × List Char) :=
  grabDigitsUF cs.length cs

/-- `Rat` value of an integer by `mkRat`, avoiding typeclass cast paths
that do not evaluate inside the kernel. -/
def intToRat (n : Int) : Rat := mkRat n 1

/-- `Rat` value of a natural number. -/
def natToRat (n : Nat) : Rat := mkRat (Int.ofNat n) 1

/-- Apply a `±1` sign to a rational (kernel-evaluable). -/
def ratSign (sgn : Int) (q : Rat) : Rat :=
  if sgn < 0 then mkRat (Int.neg q.num) q.den else q

/-- Value of `intpart.fracpart * 10^exp` as a rational (phrased with
`mkRat` and `Nat.pow` so that it evaluates inside the kernel). -/
def floatVal (ip fp : List Char) (ex : Int) : Rat :=
  let mant : Int := Int.ofNat (Nat.mul (digitsToNat ip) (Nat.pow 10 fp.length) + digitsToNat fp)
  let e : Int := ex - fp.length
  if 0 ≤ e then intToRat (Int.mul mant (Int.ofNat (Nat.pow 10 e.toNat)))
  else mkRat mant (Nat.pow 10 (-e).toNat)

/-- Parse the unsigned numeric part of a Python float literal
(`digits [. digits] [exp] | . digits [exp]`), requiring full consumption. -/
def pyFloatNum (cs : List Char) : Option Rat :=
  let (ip, r1) := grabDigitsU cs
  let fpr : Option (List Char) × List Char :=
    match r1 with
    | '.' :: r => let (f, rr) := grabDigitsU r; (some f, rr)
    | _ => (Option.none, r1)
  let fp := fpr.1
  let r2 := fpr.2
  if ip = [] ∧ (fp = Option.none ∨ fp = some []) then Option.none
  else
    let frac := fp.getD []
    match r2 with
    | [] => some (floatVal ip frac 0)
    | e :: r3 =>
        if e = 'e' ∨ e = 'E' then
          let sr : Int × List Char :=
            match r3 with
            | '+' :: r => (1, r)
            | '-' :: r => (-1, r)
            | r => (1, r)
          let (eds, r4) := grabDigitsU sr.2
          if eds = [] ∨ r4 ≠ [] then Option.none
          else some (floatVal ip frac (sr.1 * digitsToNat eds))
        else Option.none

/-- Python `float(s)`: strip whitespace, optional sign, then a numeric
literal or `inf`/`infinity`/`nan` (case-insensitive). -/
def pyFloat? (s : String) : Option PyFloat :=
  let cs := pyStripL s.data
  let sb : Int × List Char :=
    match cs with
    | '+' :: r => (1, r)
    | '-' :: r => (-1, r)
    | r => (1, r)
  let lb := lowerL sb.2
  if lb = "inf".data ∨ lb = "infinity".data then
    some (if sb.1 = 1 then PyFloat.inf else PyFloat.ninf)
  else if lb = "nan".data then some PyFloat.nan
  else (pyFloatNum sb.2).map (fun q => PyFloat.finite (ratSign sb.1 q))

/-- `_try_num` producing a scalar: `int` for all-digit tokens, else Python
`float`, else the token unchanged. -/
def _try_num_s (tok : String) : PyScalar :=
  if isdigitL tok.data then .int ((digitsToNat tok.data : Nat) : Int)
  else
    match pyFloat? tok with
    | some f => .float f
    | Option.none => .str tok

/-- Scalar-to-value injection. -/
def PyScalar.toValue : PyScalar → PyValue
  | .str s => .str s
  | .int n => .int n
  | .float f => .float f

/-- `_try_num` (main.py lines 130-137). -/
def _try_num (tok : String) : PyValue := (_try_num_s tok).toValue

/-! ## `_parse_options` (main.py lines 139-150)

Splits a `{...}` body on commas whose tail contains exactly one colon or no
comma (the regex lookahead `,(?=(?:[^:]*:[^:]*$)|(?:[^,]*$))`), then builds a
key-value dictionary with `_try_num`-coerced values. -/

/-- Split at every comma whose tail has exactly one `':'` or no `','`. -/
def optSplitAux : List Char → List Char → List (List Char)
  | [], cur => [cur.reverse]
  | c :: rest, cur =>
      if c = ',' ∧ (rest.count ':' = 1 ∨ ¬ rest.contains ',') then
        cur.reverse :: optSplitAux rest []
      else optSplitAux rest (c :: cur)

/-- Quote characters stripped from option keys. -/
def quoteChar (c : Char) : Bool := c = '\'' || c = '"'

/-- Python `str.strip("'\"")`. -/
def stripQuotes (cs : List Char) : List Char :=
  ((cs.dropWhile quoteChar).reverse.dropWhile quoteChar).reverse

/-- Split a part at its first colon (`str.split(':', 1)`),
returning `none` when there is no colon. -/
def splitFirstColon : List Char → Option (List Char × List Char)
  | [] => Option.none
  | c :: rest =>
      if c = ':' then some ([], rest)
      else (splitFirstColon rest).map (fun p => (c :: p.1, p.2))

/-- Insert-or-overwrite into an insertion-ordered dictionary. -/
def dictUpd (d : List (String × PyScalar)) (k : String) (v : PyScalar) :
    List (String × PyScalar) :=
  if d.any (fun p => p.1 = k) then
    d.map (fun p => if p.1 = k then (k, v) else p)
  else d ++ [(k, v)]

/-- `_parse_options`: parse a `{k:v, ...}` literal into a dictionary; tokens
not brace-delimited are returned unchanged. -/
def _parse_options (tok : String) : PyValue :=
  let cs := pyStripL tok.data
  if cs.head? = some '{' ∧ cs.getLast? = some '}' then
    let body := pyStripL ((cs.drop 1).dropLast)
    let parts := optSplitAux body []
    .dict (parts.foldl
      (fun d part =>
        match splitFirstColon part with
        | Option.none => d
        | some (k, v) =>
            dictUpd d ⟨stripQuotes (pyStripL k)⟩ (_try_num_s ⟨pyStripL v⟩))
      [])
  else .str ⟨cs⟩

/-! ## `_parse_info_html` (main.py lines 152-186)

`html.unescape`, then `<br>` tags to newlines, then every remaining tag
stripped, split into non-empty trimmed lines, then a case-insensitive
`label\s*:\s*(.+)` search per requested label. -/

/-- Length bound for `List.dropWhile`. -/
theorem dropWhile_len_le (p : Char → Bool) (l : List Char) :
    (l.dropWhile p).length ≤ l.length := by
  induction l with
  | nil => simp [List.dropWhile]
  | cons c rest ih =>
      by_cases h : p c <;> simp [List.dropWhile, h] <;> omega

/-- Grab a run of ASCII digits; returns the digits and the rest. -/
def grabDigits : List Char → (List Char × List Char)
  | [] => ([], [])
  | c :: rest =>
      if digChar c then
        let p := grabDigits rest
        (c :: p.1, p.2)
      else ([], c :: rest)

theorem grabDigits_len_le (cs : List Char) :
    (grabDigits cs).2.length ≤ cs.length := by
  induction cs with
  | nil => simp [grabDigits]
  | cons c rest ih =>
      by_cases h : digChar c <;> simp [grabDigits, h] <;> omega

/-- ASCII hexadecimal digit. -/
def hexChar (c : Char) : Bool :=
  digChar c || ('a' ≤ c && c ≤ 'f') || ('A' ≤ c && c ≤ 'F')

/-- Value of a hex digit. -/
def hexVal (c : Char) : Nat :=
  if digChar c then c.toNat - 48
  else if 'a' ≤ c && c ≤ 'f' then c.toNat - 87
  else c.toNat - 55

/-- Grab a run of hex digits. -/
def grabHex : List Char → (List Char × List Char)
  | [] => ([], [])
  | c :: rest =>
      if hexChar c then
        let p := grabHex rest
        (c :: p.1, p.2)
      else ([], c :: rest)

theorem grabHex_len_le (cs : List Char) :
    (grabHex cs).2.length ≤ cs.length := by
  induction cs with
  | nil => simp [grabHex]
  | cons c rest ih =>
      by_cases h : hexChar c <;> simp [grabHex, h] <;> omega

/-- Numeric value of a hex-digit list. -/
def hexToNat (cs : List Char) : Nat :=
  cs.foldl (fun a c => a * 16 + hexVal c) 0

/-- `chr` for a character reference: valid code points map to their
character, everything else to U+FFFD as `html.unescape` does. -/
def charOfCode (n : Nat) : Char :=
  if h : n.isValidChar then Char.ofNatAux n h else '\uFFFD'

/-- Match one character reference or named entity right after a `&`.
This models `html.unescape` on the entity repertoire the portal emits:
decimal/hex character references (optional `;`) and the basic named
entities `amp`/`lt`/`gt`/`quot` (with or without `;`, as in the HTML5
table), `apos;` and `nbsp`.  Returns the decoded character and the number
of characters consumed. -/
def entityMatch : List Char → Option (Char × Nat)
  | '#' :: 'x' :: rest =>
      let p := grabHex rest
      if p.1 = [] then Option.none
      else some (charOfCode (hexToNat p.1),
        2 + p.1.length + (if p.2.head? = some ';' then 1 else 0))
  | '#' :: 'X' :: rest =>
      let p := grabHex rest
      if p.1 = [] then Option.none
      else some (charOfCode (hexToNat p.1),
        2 + p.1.length + (if p.2.head? = some ';' then 1 else 0))
  | '#' :: rest =>
      let p := grabDigits rest
      if p.1 = [] then Option.none
      else some (charOfCode (digitsToNat p.1),
        1 + p.1.length + (if p.2.head? = some ';' then 1 else 0))
  | cs =>
      if cs.take 4 = "amp;".data then some ('&', 4)
      else if cs.take 3 = "amp".data then some ('&', 3)
      else if cs.take 3 = "lt;".data then some ('<', 3)
      else if cs.take 2 = "lt".data then some ('<', 2)
      else if cs.take 3 = "gt;".data then some ('>', 3)
      else if cs.take 2 = "gt".data then some ('>', 2)
      else if cs.take 5 = "quot;".data then some ('"', 5)
      else if cs.take 4 = "quot".data then some ('"', 4)
      else if cs.take 5 = "apos;".data then some ('\'', 5)
      else if cs.take 5 = "nbsp;".data then some ('\u00a0', 5)
      else if cs.take 4 = "nbsp".data then some ('\u00a0', 4)
      else Option.none

/-- `html.unescape` over the modelled entity repertoire. -/
def htmlUnescapeF : Nat → List Char → List Char
  | _, [] => []
  | fuel + 1, '&' :: rest =>
      (match entityMatch rest with
       | some p => p.1 :: htmlUnescapeF fuel (rest.drop p.2)
       | Option.none => '&' :: htmlUnescapeF fuel rest)
  | fuel + 1, c :: rest => c :: htmlUnescapeF fuel rest
  | 0, cs => cs

/-- Entry point with fuel bounded by the length (always sufficient: every
step consumes at least the leading character). -/
def htmlUnescape (cs : List Char) : List Char := htmlUnescapeF cs.length cs

/-- Match a `<br\s*/?>` tag body right after a `<` (case-insensitive);
returns the number of characters consumed after the `<`. -/
def matchBr (cs : List Char) : Option Nat :=
  match cs with
  | b :: r :: rest =>
      if (b = 'b' ∨ b = 'B') ∧ (r = 'r' ∨ r = 'R') then
        let w := (rest.takeWhile wsChar).length
        match rest.drop w with
        | '/' :: '>' :: _ => some (2 + w + 2)
        | '>' :: _ => some (2 + w + 1)
        | _ => Option.none
      else Option.none
  | _ => Option.none

/-- `re.sub` of `<br\s*/?>` (case-insensitive) by a newline. -/
def brSubF : Nat → List Char → List Char
  | _, [] => []
  | fuel + 1, '<' :: rest =>
      (match matchBr rest with
       | some k => '\n' :: brSubF fuel (rest.drop k)
       | Option.none => '<' :: brSubF fuel rest)
  | fuel + 1, c :: rest => c :: brSubF fuel rest
  | 0, cs => cs

/-- Entry point with always-sufficient fuel. -/
def brSub (cs : List Char) : List Char := brSubF cs.length cs

/-- Match a `[^>]+>` tag body right after a `<`; returns the number of
characters consumed after the `<`. -/
def tagMatch (cs : List Char) : Option Nat :=
  match cs with
  | [] => Option.none
  | c :: _ =>
      if c = '>' then Option.none
      else
        let inner := (cs.takeWhile (fun x => x != '>')).length
        if inner < cs.length then some (inner + 1) else Option.none

/-- `re.sub` deleting every remaining `<[^>]+>` tag. -/
def tagStripF : Nat → List Char → List Char
  | _, [] => []
  | fuel + 1, '<' :: rest =>
      (match tagMatch rest with
       | some k => tagStripF fuel (rest.drop k)
       | Option.none => '<' :: tagStripF fuel rest)
  | fuel + 1, c :: rest => c :: tagStripF fuel rest
  | 0, cs => cs

/-- Entry point with always-sufficient fuel. -/
def tagStrip (cs : List Char) : List Char := tagStripF cs.length cs

/-- Python line-break characters for `str.splitlines`. -/
def lineBreakChar (c : Char) : Bool :=
  c = '\n' || c = '\r' || c = '\x0b' || c = '\x0c' || c = '\x1c' ||
  c = '\x1d' || c = '\x1e' || c = '\x85' || c = '\u2028' || c = '\u2029'

/-- Python `str.splitlines()` (no trailing empty segment). -/
def splitLinesAux : List Char → List Char → List (List Char)
  | [], cur => if cur = [] then [] else [cur.reverse]
  | '\r' :: '\n' :: rest, cur => cur.reverse :: splitLinesAux rest []
  | c :: rest, cur =>
      if lineBreakChar c then cur.reverse :: splitLinesAux rest []
      else splitLinesAux rest (c :: cur)

/-- The non-empty stripped lines `_parse_info_html` searches: entity-decode,
`<br>` to newline, strip the remaining tags, split, strip, drop empties. -/
def infoLines (s : String) : List String :=
  (((splitLinesAux (tagStrip (brSub (htmlUnescape s.data))) []).map pyStripL).filter
    (fun l => l ≠ [])).map String.mk

/-- Case-insensitive prefix removal; `some rest` on success. -/
def dropCIPrefix : List Char → List Char → Option (List Char)
  | [], cs => some cs
  | _ :: _, [] => Option.none
  | p :: ps, c :: cs =>
      if Char.toLower c = Char.toLower p then dropCIPrefix ps cs else Option.none

/-- Try `k\s*:\s*(.+)` anchored at this position; the captured group is
returned stripped (the caller strips it in the source). -/
def matchLabelAt (k : List Char) (ln : List Char) : Option (List Char) :=
  match dropCIPrefix k ln with
  | Option.none => Option.none
  | some r1 =>
      match r1.dropWhile wsChar with
      | ':' :: rest => if rest = [] then Option.none else some (pyStripL rest)
      | _ => Option.none

/-- `re.search(rf'{k}\s*[:]\s*(.+)', ln, re.I)`: leftmost position wins. -/
def findLabelIn (k : List Char) : List Char → Option (List Char)
  | [] => Option.none
  | c :: rest =>
      match matchLabelAt k (c :: rest) with
      | some v => some v
      | Option.none => findLabelIn k rest

/-- The `find` helper: first line with a match wins. -/
def findLabel (k : String) : List String → Option String
  | [] => Option.none
  | ln :: rest =>
      match findLabelIn k.data ln.data with
      | some v => some ⟨v⟩
      | Option.none => findLabel k rest

/-- Python `a or b` for optional strings (`None` and `""` are falsy). -/
def pyOrStr (a b : Option String) : Option String :=
  match a with
  | some s => if s = "" then b else some s
  | Option.none => b

/-- Match `[+-]?\d+(\.\d+)?` anchored at this position, as a rational. -/
def numMatchAt (cs : List Char) : Option Rat :=
  let sgn : Int × List Char :=
    match cs with
    | '+' :: r => (1, r)
    | '-' :: r => (-1, r)
    | r => (1, r)
  let p := grabDigits sgn.2
  if p.1 = [] then Option.none
  else
    match p.2 with
    | '.' :: r2 =>
        let f := grabDigits r2
        if f.1 = [] then some (ratSign sgn.1 (natToRat (digitsToNat p.1)))
        else some (ratSign sgn.1 (floatVal p.1 f.1 0))
    | _ => some (ratSign sgn.1 (natToRat (digitsToNat p.1)))

/-- `re.search(r'([+-]?\d+(\.\d+)?)', v)` then `float`: leftmost match. -/
def fnumScan : List Char → Option Rat
  | [] => Option.none
  | c :: rest =>
      match numMatchAt (c :: rest) with
      | some q => some q
      | Option.none => fnumScan rest

/-- The `fnum` helper: falsy values give `None`, else the first signed
decimal number in the string. -/
def fnum (v : Option String) : Option Rat :=
  match v with
  | Option.none => Option.none
  | some s => if s = "" then Option.none else fnumScan s.data

/-- The labelled fields extracted from an info blob. -/
structure InfoFields where
  code : Option String
  rain : Option String
  date : Option String
  temperature_c : Option Rat
  humidity_pct : Option Rat
  battery_v : Option Rat
  solar_volt_v : Option Rat
  status_text : Option String
deriving DecidableEq, Repr

/-- Field extraction over a (truthy) info blob. -/
def parseInfoFields (s : String) : InfoFields :=
  let lines := infoLines s
  { code := findLabel "Code" lines
    rain := findLabel "Rain" lines
    date := findLabel "Date" lines
    temperature_c := fnum (pyOrStr (findLabel "Temperature" lines) (findLabel "Temp" lines))
    humidity_pct := fnum (findLabel "Humidity" lines)
    battery_v := fnum (findLabel "Battery" lines)
    solar_volt_v := fnum (pyOrStr (findLabel "Solar Panels Voltages" lines) (findLabel "Solar" lines))
    status_text := findLabel "Status" lines }

/-- `_parse_info_html` on a string-or-missing blob: a falsy blob yields the
empty mapping (modelled `none`). -/
def _parse_info_html (info_html : Option String) : Option InfoFields :=
  match info_html with
  | Option.none => Option.none
  | some s => if s = "" then Option.none else some (parseInfoFields s)

/-! ## `parse_status_from_icon` (main.py lines 188-209) -/

/-- Exact prefix removal. -/
def dropPrefixL : List Char → List Char → Option (List Char)
  | [], cs => some cs
  | _ :: _, [] => Option.none
  | p :: ps, c :: cs => if c = p then dropPrefixL ps cs else Option.none

/-- `raingauge[_-]\d+` anchored at this position (the optional `(\.png)?`
tail cannot affect whether `re.search` succeeds). -/
def raingaugePatAt (cs : List Char) : Bool :=
  match dropPrefixL "raingauge".data cs with
  | some (s :: d :: _) => (s = '_' ∨ s = '-') ∧ digChar d
  | _ => false

/-- `re.search(r'raingauge[_-]\d+(\.png)?', icon_str)`. -/
def hasRaingaugeNum : List Char → Bool
  | [] => false
  | c :: rest => raingaugePatAt (c :: rest) || hasRaingaugeNum rest

/-- The keyword cascade of the icon classifier (input already lower-cased). -/
def iconKeywords (icon_str : String) : String :=
  if strContains icon_str "online" || strContains icon_str "green" ||
      strContains icon_str "_1" then "ONLINE"
  else if strContains icon_str "offline" || strContains icon_str "red" ||
      strContains icon_str "_0" then "OFFLINE"
  else if strContains icon_str "timeout" || strContains icon_str "yellow" ||
      strContains icon_str "orange" then "TIMEOUT"
  else if strContains icon_str "disconnect" || strContains icon_str "grey" ||
      strContains icon_str "gray" then "DISCONNECT"
  else if strContains icon_str "repair" || strContains icon_str "maintenance" then "REPAIR"
  else "UNKNOWN"

/-- `parse_status_from_icon`: falsy data is UNKNOWN; a numbered rain-gauge
icon is UNKNOWN; otherwise the keyword cascade decides. -/
def parse_status_from_icon (icon_data : Option PyValue) : String :=
  if ¬ optTruthy icon_data then "UNKNOWN"
  else
    let icon_str : String := ⟨lowerL ((icon_data.getD PyValue.none).render).data⟩
    if hasRaingaugeNum icon_str.data then "UNKNOWN"
    else iconKeywords icon_str

/-! ## `_parse_date` (main.py lines 508-519)

`datetime.strptime` for the two formats `"%d/%m/%Y %H:%M UTC"` and
`"%d/%m/%Y %H:%M"`, with CPython's `_strptime` regex semantics: each numeric
directive tries its two-digit alternatives before the one-digit one, format
whitespace matches `\s+`, the literal `UTC` matches case-insensitively, the
whole string must be consumed, and the resulting field values must form a
valid calendar date.  A parsed date with no `"UTC"` substring in the input
gets `tzinfo=timezone.utc` (`aware = true`); with it the datetime stays
naive. -/

/-- A parsed datetime; `aware` records whether `tzinfo` was set. -/
structure PyDateTime where
  year : Nat
  month : Nat
  day : Nat
  hour : Nat
  minute : Nat
  aware : Bool
deriving DecidableEq, Repr

/-- `%d`: `3[01]|[12]\d|0[1-9]|[1-9]`. -/
def matchD2 : List Char → Option (Nat × List Char)
  | c1 :: c2 :: rest =>
      if c1 = '3' ∧ (c2 = '0' ∨ c2 = '1') then some (30 + (c2.toNat - 48), rest)
      else if (c1 = '1' ∨ c1 = '2') ∧ digChar c2 then
        some ((c1.toNat - 48) * 10 + (c2.toNat - 48), rest)
      else if c1 = '0' ∧ ('1' ≤ c2 ∧ c2 ≤ '9') then some (c2.toNat - 48, rest)
      else if '1' ≤ c1 ∧ c1 ≤ '9' then some (c1.toNat - 48, c2 :: rest)
      else Option.none
  | [c1] => if '1' ≤ c1 ∧ c1 ≤ '9' then some (c1.toNat - 48, []) else Option.none
  | [] => Option.none

/-- `%m`: `1[0-2]|0[1-9]|[1-9]`. -/
def matchMo : List Char → Option (Nat × List Char)
  | c1 :: c2 :: rest =>
      if c1 = '1' ∧ ('0' ≤ c2 ∧ c2 ≤ '2') then some (10 + (c2.toNat - 48), rest)
      else if c1 = '0' ∧ ('1' ≤ c2 ∧ c2 ≤ '9') then some (c2.toNat - 48, rest)
      else if '1' ≤ c1 ∧ c1 ≤ '9' then some (c1.toNat - 48, c2 :: rest)
      else Option.none
  | [c1] => if '1' ≤ c1 ∧ c1 ≤ '9' then some (c1.toNat - 48, []) else Option.none
  | [] => Option.none

/-- `%H`: `2[0-3]|[0-1]\d|\d`. -/
def matchH : List Char → Option (Nat × List Char)
  | c1 :: c2 :: rest =>
      if c1 = '2' ∧ ('0' ≤ c2 ∧ c2 ≤ '3') then some (20 + (c2.toNat - 48), rest)
      else if (c1 = '0' ∨ c1 = '1') ∧ digChar c2 then
        some ((c1.toNat - 48) * 10 + (c2.toNat - 48), rest)
      else if digChar c1 then some (c1.toNat - 48, c2 :: rest)
      else Option.none
  | [c1] => if digChar c1 then some (c1.toNat - 48, []) else Option.none
  | [] => Option.none

/-- `%M`: `[0-5]\d|\d`. -/
def matchMi : List Char → Option (Nat × List Char)
  | c1 :: c2 :: rest =>
      if ('0' ≤ c1 ∧ c1 ≤ '5') ∧ digChar c2 then
        some ((c1.toNat - 48) * 10 + (c2.toNat - 48), rest)
      else if digChar c1 then some (c1.toNat - 48, c2 :: rest)
      else Option.none
  | [c1] => if digChar c1 then some (c1.toNat - 48, []) else Option.none
  | [] => Option.none

/-- `%Y`: exactly four digits. -/
def matchY : List Char → Option (Nat × List Char)
  | a :: b :: c :: d :: rest =>
      if digChar a ∧ digChar b ∧ digChar c ∧ digChar d then
        some (digitsToNat [a, b, c, d], rest)
      else Option.none
  | _ => Option.none

/-- Format whitespace: `\s+`. -/
def matchWs1 : List Char → Option (List Char)
  | c :: rest => if wsChar c then some (rest.dropWhile wsChar) else Option.none
  | [] => Option.none

/-- A literal character of the format. -/
def matchLit (ch : Char) : List Char → Option (List Char)
  | c :: rest => if c = ch then some rest else Option.none
  | [] => Option.none

/-- Gregorian leap year. -/
def isLeap (y : Nat) : Bool := y % 4 = 0 && (y % 100 ≠ 0 || y % 400 = 0)

/-- Days in a month. -/
def daysInMonth (y m : Nat) : Nat :=
  if m = 2 then (if isLeap y then 29 else 28)
  else if m = 4 ∨ m = 6 ∨ m = 9 ∨ m = 11 then 30
  else 31

/-- The shared `%d/%m/%Y %H:%M` core of both formats. -/
def strptimeCore (cs : List Char) : Option (Nat × Nat × Nat × Nat × Nat × List Char) := do
  let (d, r1) ← matchD2 cs
  let r2 ← matchLit '/' r1
  let (mo, r3) ← matchMo r2
  let r4 ← matchLit '/' r3
  let (y, r5) ← matchY r4
  let r6 ← matchWs1 r5
  let (h, r7) ← matchH r6
  let r8 ← matchLit ':' r7
  let (mi, r9) ← matchMi r8
  pure (d, mo, y, h, mi, r9)

/-- `datetime(...)` construction: the calendar validation the regex leaves
to the constructor (year ≥ 1, day fits the month). -/
def mkDateTime (d mo y h mi : Nat) : Option PyDateTime :=
  if 1 ≤ y ∧ d ≤ daysInMonth y mo then
    some { year := y, month := mo, day := d, hour := h, minute := mi, aware := false }
  else Option.none

/-- `datetime.strptime(s, "%d/%m/%Y %H:%M UTC")`. -/
def strptime_fmt_utc (s : String) : Option PyDateTime := do
  let (d, mo, y, h, mi, r) ← strptimeCore s.data
  let r1 ← matchWs1 r
  let r2 ← dropCIPrefix "utc".data r1
  if r2 = [] then mkDateTime d mo y h mi else Option.none

/-- `datetime.strptime(s, "%d/%m/%Y %H:%M")`. -/
def strptime_fmt_plain (s : String) : Option PyDateTime := do
  let (d, mo, y, h, mi, r) ← strptimeCore s.data
  if r = [] then mkDateTime d mo y h mi else Option.none

/-- `_parse_date`: try the `UTC` format then the plain one; on success set
`tzinfo=timezone.utc` exactly when the raw string does not contain `"UTC"`
(case-sensitively). -/
def _parse_date (s : String) : Option PyDateTime :=
  if s = "" then Option.none
  else
    match strptime_fmt_utc s with
    | some dt => some (if strContains s "UTC" then dt else { dt with aware := true })
    | Option.none =>
        match strptime_fmt_plain s with
        | some dt => some (if strContains s "UTC" then dt else { dt with aware := true })
        | Option.none => Option.none

/-- `_parse_date` fed from `dict.get` (missing key gives `None`). -/
def parseDateOpt (s : Option String) : Option PyDateTime :=
  match s with
  | Option.none => Option.none
  | some str => _parse_date str

/-- Days before the first of the month within a year. -/
def daysBeforeMonth (y m : Nat) : Nat :=
  (List.range (m - 1)).foldl (fun a i => a + daysInMonth y (i + 1)) 0

/-- `date.toordinal()`: day count since 0001-01-01 (that day is 1). -/
def toOrdinal (y m d : Nat) : Nat :=
  365 * (y - 1) + (y - 1) / 4 - (y - 1) / 100 + (y - 1) / 400 +
    daysBeforeMonth y m + d

/-- Seconds on the `toordinal` scale; both naive and aware datetimes in this
pipeline denote UTC wall time (the naive ones are patched to UTC before any
arithmetic), so awareness does not shift the value. -/
def PyDateTime.toSeconds (dt : PyDateTime) : Int :=
  (((toOrdinal dt.year dt.month dt.day) * 24 + dt.hour) * 60 + dt.minute) * 60

/-- Seconds of a concrete UTC instant, for stating `now` values. -/
def secondsOfUTC (y mo d h mi : Nat) : Int :=
  (((toOrdinal y mo d) * 24 + h) * 60 + mi) * 60

/-! ## Station records

A station dictionary as built by `parse_setmap_from_html`: the fifteen
positional SetMap fields, the fields merged in from `_parse_info_html`
(`st.update(...)` overwrites `code` and adds the rest), the `station_code`
alias, the icon-derived status, and the final status.  A `none` models both a
missing key and a `None` value, which `dict.get` cannot tell apart. -/

/-- Fleet-status table (`all_status_dict`): station code ↦ the `status`
field of its entry.  The entry dictionaries built by
`fetch_all_stations_status` always carry a `status` string and are truthy. -/
abbrev FleetTable := List (String × String)

/-- `dict.get` on the fleet table. -/
def fleetLookup (tbl : FleetTable) (k : String) : Option String :=
  (tbl.find? (fun p => p.1 == k)).map (fun p => p.2)

/-- An (enriched) station record. -/
structure StationRec where
  lat : Option PyValue := Option.none
  lon : Option PyValue := Option.none
  icon_config : Option PyValue := Option.none
  marker_type : Option PyValue := Option.none
  image_path : Option PyValue := Option.none
  name : Option PyValue := Option.none
  info_html : Option PyValue := Option.none
  icon_filename : Option PyValue := Option.none
  code : Option PyValue := Option.none
  radar_radius : Option PyValue := Option.none
  label_lat : Option PyValue := Option.none
  label_lon : Option PyValue := Option.none
  radar_type : Option PyValue := Option.none
  radar_name : Option PyValue := Option.none
  radar_address : Option PyValue := Option.none
  rain : Option String := Option.none
  date : Option String := Option.none
  temperature_c : Option Rat := Option.none
  humidity_pct : Option Rat := Option.none
  battery_v : Option Rat := Option.none
  solar_volt_v : Option Rat := Option.none
  status_text : Option String := Option.none
  station_code : Option PyValue := Option.none
  status_from_icon : String := "UNKNOWN"
  status : String := ""
deriving DecidableEq, Repr

/-! ## `determine_status_by_timestamp` and `determine_final_status`
(main.py lines 400-443) -/

/-- `determine_status_by_timestamp`: missing/falsy/unparseable date gives
DISCONNECT; otherwise a delay of at most 30 minutes is ONLINE, at most
6 hours TIMEOUT, else DISCONNECT.  (A naive parsed datetime is patched to
UTC before subtraction, which leaves its wall-clock seconds unchanged.) -/
def determine_status_by_timestamp (now : Int) (station : StationRec) : String :=
  match station.date with
  | Option.none => "DISCONNECT"
  | some s =>
      if s = "" then "DISCONNECT"
      else
        match _parse_date s with
        | Option.none => "DISCONNECT"
        | some dt =>
            let delay := now - dt.toSeconds
            if delay ≤ 1800 then "ONLINE"
            else if delay ≤ 21600 then "TIMEOUT"
            else "DISCONNECT"

/-- The `status_text` keyword cascade inside `determine_final_status`
(`None` when no keyword matches, so control falls through). -/
def statusTextKeyword (t : String) : Option String :=
  let u : String := ⟨upperL t.data⟩
  if strContains u "ONLINE" || strContains u "NORMAL" || strContains u "ACTIVE" then
    some "ONLINE"
  else if strContains u "OFFLINE" then some "OFFLINE"
  else if strContains u "TIMEOUT" then some "TIMEOUT"
  else if strContains u "DISCONNECT" then some "DISCONNECT"
  else Option.none

/-- Steps 2-4 of `determine_final_status`: free-text keyword, then a truthy
non-UNKNOWN icon status, then timestamp staleness. -/
def afterFleet (now : Int) (station : StationRec) : String :=
  let textRes : Option String :=
    match station.status_text with
    | some t => if t = "" then Option.none else statusTextKeyword t
    | Option.none => Option.none
  match textRes with
  | some s => s
  | Option.none =>
      if station.status_from_icon ≠ "" ∧ station.status_from_icon ≠ "UNKNOWN" then
        station.status_from_icon
      else determine_status_by_timestamp now station

/-- `determine_final_status`.  With a truthy fleet table and a truthy
station code, the fleet entry is consulted first (`dict.get` raises
`TypeError` when the key is an unhashable dictionary; hashable non-string
keys simply miss the string-keyed table); a found non-UNKNOWN status wins,
anything else falls through to `afterFleet`. -/
def determine_final_status (now : Int) (station : StationRec)
    (all_status_dict : Option FleetTable) : Except String String :=
  match all_status_dict with
  | some tbl =>
      if tbl ≠ [] ∧ optTruthy station.station_code then
        match station.station_code with
        | some (PyValue.dict _) => .error "TypeError: unhashable type in dict.get"
        | some (PyValue.str c) =>
            (match fleetLookup tbl c with
             | some st => if st ≠ "UNKNOWN" then .ok st else .ok (afterFleet now station)
             | Option.none => .ok (afterFleet now station))
        | _ => .ok (afterFleet now station)
      else .ok (afterFleet now station)
  | Option.none => .ok (afterFleet now station)

/-! ## `parse_setmap_from_html` (main.py lines 445-506) -/

/-- Match `SetMap\s*\(` anchored at this position; returns the number of
characters consumed (through the opening parenthesis). -/
def matchSetMapOpen (cs : List Char) : Option Nat :=
  if cs.take 6 = "SetMap".data then
    let w := ((cs.drop 6).takeWhile wsChar).length
    match (cs.drop 6).drop w with
    | '(' :: _ => some (6 + w + 1)
    | _ => Option.none
  else Option.none

/-- The parenthesis-balancing loop: consume until the depth counter hits
zero or the text ends; the argument text is everything consumed except the
final consumed character (`html[start:i-1]`). -/
def innerScan : List Char → Nat → List Char → List Char
  | [], _, acc => acc.reverse.dropLast
  | c :: rest, depth, acc =>
      let depth' := if c = '(' then depth + 1 else if c = ')' then depth - 1 else depth
      if depth' = 0 then acc.reverse
      else innerScan rest depth' (c :: acc)

/-- All `re.finditer(r'SetMap\s*\(', html)` matches with their balanced
argument texts, the next search resuming right after each `(`. -/
def scanCallsF : Nat → List Char → List (List Char)
  | _, [] => []
  | fuel + 1, c :: rest =>
      (match matchSetMapOpen (c :: rest) with
       | some k =>
           innerScan ((c :: rest).drop k) 1 [] :: scanCallsF fuel ((c :: rest).drop k)
       | Option.none => scanCallsF fuel rest)
  | 0, _ => []

/-- Entry point with always-sufficient fuel: a match consumes at least the
seven characters of `SetMap(`, a non-match consumes one. -/
def scanCalls (cs : List Char) : List (List Char) := scanCallsF cs.length cs

/-- The stripped argument text of every matched call, in match order. -/
def setMapInners (html : String) : List String :=
  (scanCalls html.data).map (fun l => String.mk (pyStripL l))

/-- A cleaned token that is brace-delimited (parsed as an option literal). -/
def braceToken (a : String) : Bool :=
  a.data.head? = some '{' ∧ a.data.getLast? = some '}'

/-- Tokenize, `_clean_str`, then coerce each token of one argument text. -/
def parsedArgs (inner : String) : List PyValue :=
  ((_tokenize_args inner).map _clean_str).map
    (fun a => if braceToken a then _parse_options a else _try_num a)

/-- Build one enriched station record from the coerced positional values:
positional fields, `_parse_info_html` merge (overwriting `code`), the
`station_code` alias, the icon status, and the final status. -/
def buildStation (now : Int) (fleet : Option FleetTable) (parsed : List PyValue) :
    Except String StationRec := do
  let info_html := parsed[6]?
  let info : Option InfoFields ←
    (match info_html with
     | Option.none => Except.ok Option.none
     | some v =>
         if ¬ v.truthy then Except.ok Option.none
         else
           match v with
           | PyValue.str s => Except.ok (_parse_info_html (some s))
           | _ => Except.error "TypeError: html.unescape on a non-string")
  let code' : Option PyValue :=
    match info with
    | Option.none => parsed[8]?
    | some i => i.code.map PyValue.str
  let pre : StationRec := {
    lat := parsed[0]?, lon := parsed[1]?, icon_config := parsed[2]?,
    marker_type := parsed[3]?, image_path := parsed[4]?, name := parsed[5]?,
    info_html := info_html, icon_filename := parsed[7]?, code := code',
    radar_radius := parsed[9]?, label_lat := parsed[10]?, label_lon := parsed[11]?,
    radar_type := parsed[12]?, radar_name := parsed[13]?, radar_address := parsed[14]?,
    rain := info.bind (fun i => i.rain),
    date := info.bind (fun i => i.date),
    temperature_c := info.bind (fun i => i.temperature_c),
    humidity_pct := info.bind (fun i => i.humidity_pct),
    battery_v := info.bind (fun i => i.battery_v),
    solar_volt_v := info.bind (fun i => i.solar_volt_v),
    status_text := info.bind (fun i => i.status_text),
    station_code := code',
    status_from_icon := parse_status_from_icon parsed[7]?,
    status := "" }
  let st ← determine_final_status now pre fleet
  pure { pre with status := st }

/-- The per-call loop of `parse_setmap_from_html`: skip empty argument
texts without counting; on the first counted call, a first coerced value
whose `str(...).lower()` is `"lat"` is a header row, skipped but counted. -/
def processInners (now : Int) (fleet : Option FleetTable) :
    List String → Nat → Except String (List StationRec)
  | [], _ => .ok []
  | inner :: rest, count =>
      if inner = "" then processInners now fleet rest count
      else
        match parsedArgs inner with
        | p0 :: _ =>
            if count = 0 ∧ (String.mk (lowerL (p0.render).data) = "lat") then
              processInners now fleet rest (count + 1)
            else do
              let st ← buildStation now fleet (parsedArgs inner)
              let out ← processInners now fleet rest (count + 1)
              pure (st :: out)
        | [] => do
            let st ← buildStation now fleet (parsedArgs inner)
            let out ← processInners now fleet rest (count + 1)
            pure (st :: out)

/-- `parse_setmap_from_html`. -/
def parse_setmap_from_html (now : Int) (html : String)
    (all_status_dict : Option FleetTable) : Except String (List StationRec) :=
  processInners now all_status_dict (setMapInners html) 0

/-! ## `_to_mm` and `clean_data` (main.py lines 521-543) -/

/-- Match `-?\d+(\.\d+)?` anchored at this position. -/
def mmMatchAt (cs : List Char) : Option Rat :=
  let sgn : Int × List Char :=
    match cs with
    | '-' :: r => (-1, r)
    | r => (1, r)
  let p := grabDigits sgn.2
  if p.1 = [] then Option.none
  else
    match p.2 with
    | '.' :: r2 =>
        let f := grabDigits r2
        if f.1 = [] then some (ratSign sgn.1 (natToRat (digitsToNat p.1)))
        else some (ratSign sgn.1 (floatVal p.1 f.1 0))
    | _ => some (ratSign sgn.1 (natToRat (digitsToNat p.1)))

/-- `re.search(r'(-?\d+(\.\d+)?)', v)`: leftmost match. -/
def mmScan : List Char → Option Rat
  | [] => Option.none
  | c :: rest =>
      match mmMatchAt (c :: rest) with
      | some q => some q
      | Option.none => mmScan rest

/-- `_to_mm`: falsy or non-string values give `None` (the record fields are
strings here), else the first decimal number in the string. -/
def _to_mm (v : Option String) : Option Rat :=
  match v with
  | Option.none => Option.none
  | some s => if s = "" then Option.none else mmScan s.data

/-- Zero-padded two-digit rendering. -/
def pad2 (n : Nat) : String := if n < 10 then "0" ++ toString n else toString n

/-- Zero-padded four-digit rendering. -/
def pad4 (n : Nat) : String :=
  if n < 10 then "000" ++ toString n
  else if n < 100 then "00" ++ toString n
  else if n < 1000 then "0" ++ toString n
  else toString n

/-- `datetime.isoformat()` for the minute-granular datetimes parsed here. -/
def PyDateTime.isoformat (dt : PyDateTime) : String :=
  pad4 dt.year ++ "-" ++ pad2 dt.month ++ "-" ++ pad2 dt.day ++ "T" ++
  pad2 dt.hour ++ ":" ++ pad2 dt.minute ++ ":00" ++
  (if dt.aware then "+00:00" else "")

/-- One cleaned record: `{**r, "station_code": code, "rain_mm": ...,
"date_iso": ...}`.  `base` carries the fields copied from the input record. -/
structure CleanRec where
  base : StationRec
  station_code : String
  rain_mm : Option Rat
  date_iso : Option String
deriving DecidableEq, Repr

/-- Python `a or b` over optional values (falsy values are skipped). -/
def pyOrVal (a b : Option PyValue) : Option PyValue :=
  match a with
  | some v => if v.truthy then some v else b
  | Option.none => b

/-- `(r.get("code") or r.get("station_code") or "")`. -/
def resolveCodeVal (r : StationRec) : Option PyValue :=
  pyOrVal r.code r.station_code

/-- The resolved, stripped station code of a record; `none` models the
`AttributeError` CPython raises when `.strip()` hits a truthy non-string. -/
def resolveCode? (r : StationRec) : Option String :=
  match resolveCodeVal r with
  | Option.none => some ""
  | some (PyValue.str s) => some (pyStrip s)
  | some _ => Option.none

/-- Build the cleaned record stored for a resolved code. -/
def mkClean (code : String) (r : StationRec) : CleanRec :=
  { base := r
    station_code := code
    rain_mm := _to_mm r.rain
    date_iso := (parseDateOpt r.date).map PyDateTime.isoformat }

/-- Association lookup in the insertion-ordered accumulator dictionary. -/
def lookupA : List (String × CleanRec) → String → Option CleanRec
  | [], _ => Option.none
  | p :: rest, k => if p.1 = k then some p.2 else lookupA rest k

/-- In-place value replacement (`out[code] = rec` for an existing key keeps
the key's position, as CPython dicts do). -/
def updateA : List (String × CleanRec) → String → CleanRec → List (String × CleanRec)
  | [], _, _ => []
  | p :: rest, k, v => (if p.1 = k then (k, v) else p) :: updateA rest k v

/-- The `clean_data` loop over an insertion-ordered dictionary.  The
replacement guard mirrors `code not in out or (dt and existing_dt and
existing_dt < dt)`: a new record is stored for an unseen code; for a seen
code it replaces the stored record only when both report dates parse with
matching awareness (mismatching awareness raises `TypeError` in CPython)
and the stored one is strictly older. -/
def cleanAux : List StationRec → List (String × CleanRec) →
    Except String (List (String × CleanRec))
  | [], out => .ok out
  | r :: rest, out =>
      match resolveCode? r with
      | Option.none => .error "AttributeError: strip on a non-string code"
      | some code =>
          if code = "" then cleanAux rest out
          else
            match lookupA out code with
            | Option.none => cleanAux rest (out ++ [(code, mkClean code r)])
            | some stored =>
                match parseDateOpt r.date with
                | Option.none => cleanAux rest out
                | some d =>
                    match parseDateOpt stored.base.date with
                    | Option.none => cleanAux rest out
                    | some e =>
                        if e.aware ≠ d.aware then
                          .error "TypeError: comparing offset-naive and offset-aware datetimes"
                        else if e.toSeconds < d.toSeconds then
                          cleanAux rest (updateA out code (mkClean code r))
                        else cleanAux rest out

/-- `clean_data`: deduplicate records by resolved station code, keeping the
most recently dated one; `list(out.values())` in insertion order. -/
def clean_data (records : List StationRec) : Except String (List CleanRec) :=
  (cleanAux records []).map (fun l => l.map (fun p => p.2))

/-! ## Claim-side (specification) definitions

These re-state behaviours in the spec's own terms, to be compared with the
source-derived definitions above. -/

/-- Claim-side split of an argument string into raw chunks: the same
three-state literal machine, but phrased as "cut at every top-level comma",
with trimming and empty-dropping deferred to a second phase. -/
def chunksAux : List Char → Option Char → Nat → Option Char → List Char →
    List (List Char)
  | [], _, _, _, cur => [cur.reverse]
  | c :: rest, state, depth, prev, cur =>
      match state with
      | Option.none =>
          if c = '"' ∨ c = '\'' then chunksAux rest (some c) depth (some c) (c :: cur)
          else if c = '{' then chunksAux rest (some '{') 1 (some c) (c :: cur)
          else if c = ',' then cur.reverse :: chunksAux rest Option.none depth (some c) []
          else chunksAux rest Option.none depth (some c) (c :: cur)
      | Option.some q =>
          if q = '{' then
            let depth' := if c = '{' then depth + 1
              else if c = '}' then depth - 1 else depth
            chunksAux rest (if depth' = 0 then Option.none else some '{') depth'
              (some c) (c :: cur)
          else
            if c = q ∧ prev ≠ some '\\' then
              chunksAux rest Option.none depth (some c) (c :: cur)
            else chunksAux rest (some q) depth (some c) (c :: cur)

/-- Claim-side tokenizer: cut at the top-level commas, then strip each chunk
and drop the empty ones. -/
def tokenizeSpec (s : String) : List String :=
  (((chunksAux s.data Option.none 0 Option.none []).map pyStripL).filter
    (fun t => t ≠ [])).map String.mk

/-- The interleaved worker equals the two-phase chunk description. -/
theorem tokAux_eq_chunks (cs : List Char) :
    ∀ (state : Option Char) (depth : Nat) (prev : Option Char)
      (cur : List Char) (acc : List (List Char)),
      tokAux cs state depth prev cur acc =
        acc.reverse ++
          ((chunksAux cs state depth prev cur).map pyStripL).filter (fun t => t ≠ []) := by
  induction cs with
  | nil =>
      intro state depth prev cur acc
      simp only [tokAux, chunksAux, List.map_cons, List.map_nil, List.filter]
      by_cases h : pyStripL cur.reverse = []
      · simp [h]
      · simp [h]
  | cons c rest ih =>
      intro state depth prev cur acc
      match state with
      | Option.none =>
          by_cases h1 : c = '"' ∨ c = '\''
          · simp [tokAux, chunksAux, h1, ih]
          · by_cases h2 : c = '{'
            · simp [tokAux, chunksAux, h1, h2, ih]
            · by_cases h3 : c = ','
              · by_cases h4 : pyStripL cur.reverse = []
                · simp [tokAux, chunksAux, h1, h2, h3, h4, ih, List.filter_cons]
                · simp [tokAux, chunksAux, h1, h2, h3, h4, ih, List.filter_cons]
              · simp [tokAux, chunksAux, h1, h2, h3, ih]
      | Option.some q =>
          by_cases h1 : q = '{'
          · simp [tokAux, chunksAux, h1, ih]
          · by_cases h2 : c = q ∧ prev ≠ some '\\'
            · simp [tokAux, chunksAux, h1, h2, ih]
            · simp [tokAux, chunksAux, h1, h2, ih]

/-- Claim-side step 1 (C1): a fleet-table entry for the record's (non-empty,
string) station code whose status is not UNKNOWN. -/
def fleetEvidence (station : StationRec) (fleet : Option FleetTable) : Option String :=
  match fleet, station.station_code with
  | some tbl, some (PyValue.str c) =>
      if c = "" then Option.none
      else
        match fleetLookup tbl c with
        | some st => if st = "UNKNOWN" then Option.none else some st
        | Option.none => Option.none
  | _, _ => Option.none

/-- Claim-side step 2 (C1): a recognizable keyword in a present, non-empty
`status_text`, checked ONLINE/NORMAL/ACTIVE, then OFFLINE, TIMEOUT,
DISCONNECT. -/
def textEvidence (station : StationRec) : Option String :=
  match station.status_text with
  | some t => if t = "" then Option.none else statusTextKeyword t
  | Option.none => Option.none

/-- Claim-side step 3 (C1): a present, non-UNKNOWN icon-derived status. -/
def iconEvidence (station : StationRec) : Option String :=
  if station.status_from_icon ≠ "" ∧ station.status_from_icon ≠ "UNKNOWN" then
    some station.status_from_icon
  else Option.none

/-- Claim-side reconciler (C1): fixed precedence, first applicable evidence
wins, timestamp staleness as the final fallback. -/
def reconcile_spec (now : Int) (station : StationRec) (fleet : Option FleetTable) :
    String :=
  match fleetEvidence station fleet with
  | some s => s
  | Option.none =>
      match textEvidence station with
      | some s => s
      | Option.none =>
          match iconEvidence station with
          | some s => s
          | Option.none => determine_status_by_timestamp now station

/-- Steps 2-4 of the source coincide with the claim-side evidence chain. -/
theorem afterFleet_eq_chain (now : Int) (st : StationRec) :
    afterFleet now st =
      (match textEvidence st with
       | some s => s
       | Option.none =>
           match iconEvidence st with
           | some s => s
           | Option.none => determine_status_by_timestamp now st) := by
  unfold afterFleet textEvidence iconEvidence
  cases st.status_text with
  | none =>
      by_cases hc : ¬st.status_from_icon = "" ∧ ¬st.status_from_icon = "UNKNOWN" <;>
        simp [hc]
  | some t =>
      by_cases ht : t = ""
      · by_cases hc : ¬st.status_from_icon = "" ∧ ¬st.status_from_icon = "UNKNOWN" <;>
          simp [ht, hc]
      · simp only [if_neg ht]
        cases hk : statusTextKeyword t with
        | some s => simp
        | none =>
            by_cases hc : ¬st.status_from_icon = "" ∧ ¬st.status_from_icon = "UNKNOWN" <;>
              simp [hc]

/-- The source reconciler equals the claim-side reconciler on every record
whose station-code field is not an object literal (for an object literal,
CPython's `dict.get` raises instead of returning — cf. C4's bug family). -/
theorem determine_eq_reconcile (now : Int) (station : StationRec)
    (fleet : Option FleetTable)
    (hd : ∀ d, station.station_code ≠ some (PyValue.dict d)) :
    determine_final_status now station fleet =
      .ok (reconcile_spec now station fleet) := by
  cases fleet with
  | none =>
      simp [determine_final_status, reconcile_spec, fleetEvidence, afterFleet_eq_chain]
  | some tbl =>
      simp only [determine_final_status, reconcile_spec, fleetEvidence]
      by_cases htr : tbl ≠ [] ∧ optTruthy station.station_code
      · rw [if_pos htr]
        cases hsc : station.station_code with
        | none => rw [hsc] at htr; simp [optTruthy] at htr
        | some v =>
            cases v with
            | dict d => exact absurd hsc (hd d)
            | str c =>
                have hc : ¬c = "" := by
                  rw [hsc] at htr
                  simpa [optTruthy, PyValue.truthy] using htr.2
                cases hl : fleetLookup tbl c with
                | none => simp [hl, hc, afterFleet_eq_chain]
                | some st0 =>
                    by_cases hu : st0 = "UNKNOWN"
                    · simp [hl, hc, hu, afterFleet_eq_chain]
                    · simp [hl, hc, hu]
            | int n => simp [afterFleet_eq_chain]
            | float f => simp [afterFleet_eq_chain]
            | none => rw [hsc] at htr; simp [optTruthy, PyValue.truthy] at htr
      · rw [if_neg htr]
        by_cases he : tbl = []
        · subst he
          cases hsc : station.station_code with
          | none => simp [afterFleet_eq_chain]
          | some v =>
              cases v with
              | str c =>
                  by_cases hc : c = "" <;> simp [fleetLookup, hc, afterFleet_eq_chain]
              | int n => simp [afterFleet_eq_chain]
              | float f => simp [afterFleet_eq_chain]
              | dict d => simp [afterFleet_eq_chain]
              | none => simp [afterFleet_eq_chain]
        · have hnt : ¬optTruthy station.station_code := by
            intro h
            exact htr ⟨he, h⟩
          cases hsc : station.station_code with
          | none => simp [afterFleet_eq_chain]
          | some v =>
              cases v with
              | str c =>
                  have hc : c = "" := by
                    rw [hsc] at hnt
                    simpa [optTruthy, PyValue.truthy] using hnt
                  simp [hc, afterFleet_eq_chain]
              | int n => simp [afterFleet_eq_chain]
              | float f => simp [afterFleet_eq_chain]
              | dict d => simp [afterFleet_eq_chain]
              | none => simp [afterFleet_eq_chain]

/-- The `now` used by C1's second concrete instance: 45 minutes after the
record's report time. -/
def c1now : Int := secondsOfUTC 2024 1 1 10 45

/-- C1's first concrete instance: icon ONLINE, no status text, fleet entry
OFFLINE. -/
def c1fleetOverIcon : StationRec :=
  { station_code := some (PyValue.str "G1"), status_from_icon := "ONLINE" }

/-- C1's second concrete instance: no fleet entry, no status text, icon
UNKNOWN, report timestamp 45 minutes old. -/
def c1stale45 : StationRec :=
  { station_code := some (PyValue.str "G2"), status_from_icon := "UNKNOWN",
    date := some "01/01/2024 10:00" }

/-- C1: `determine_final_status` applies the fixed precedence — fleet-table
entry (non-UNKNOWN) first, then a `status_text` keyword
(ONLINE/NORMAL/ACTIVE, OFFLINE, TIMEOUT, DISCONNECT in that order), then a
non-UNKNOWN icon status, then timestamp staleness (absent/unparseable date →
DISCONNECT, ≤30 min → ONLINE, ≤6 h → TIMEOUT, else DISCONNECT).  In
particular a record with icon ONLINE, no status text and fleet entry OFFLINE
gets OFFLINE, and a record with no fleet entry, no status text, icon UNKNOWN
and a 45-minute-old report gets TIMEOUT.  (The equivalence is stated for
records whose station-code field is not an object literal; on those the
source raises instead of returning any status.) -/
theorem C1_reconciler_precedence :
    (∀ (now : Int) (station : StationRec) (fleet : Option FleetTable),
        (∀ d, station.station_code ≠ some (PyValue.dict d)) →
        determine_final_status now station fleet =
          .ok (reconcile_spec now station fleet)) ∧
    determine_final_status c1now c1fleetOverIcon (some [("G1", "OFFLINE")]) =
      .ok "OFFLINE" ∧
    determine_final_status c1now c1stale45 Option.none = .ok "TIMEOUT" :=
  ⟨determine_eq_reconcile, by rfl, by rfl⟩

/-- Witness for C1: the equivalence applied at the first concrete instance,
its hypothesis discharged there. -/
theorem C1_reconciler_precedence_witness :
    determine_final_status c1now c1fleetOverIcon (some [("G1", "OFFLINE")]) =
      .ok (reconcile_spec c1now c1fleetOverIcon (some [("G1", "OFFLINE")])) :=
  C1_reconciler_precedence.1 c1now c1fleetOverIcon (some [("G1", "OFFLINE")])
    (fun d h => by simp [c1fleetOverIcon] at h)

/-- C3: the tokenizer splits exactly at the commas outside quoted strings
and brace literals (states tracked by the literal machine, a quote closing
only when unescaped), emitting stripped non-empty tokens in order; in
particular the given input yields exactly its three top-level tokens. -/
theorem C3_tokenizer_splits :
    (∀ s : String, _tokenize_args s = tokenizeSpec s) ∧
    _tokenize_args "'a,b', \x7bx:1,y:2\x7d, 3" =
      ["'a,b'", "\x7bx:1,y:2\x7d", "3"] := by
  constructor
  · intro s
    unfold _tokenize_args tokenizeSpec
    rw [tokAux_eq_chunks]
    simp
  · decide

/-- C10: the tokenizer never emits an empty token, so an omitted positional
argument shifts every later positional field left instead of leaving a null
hole; concretely `SetMap(1,,'x')` tokenizes to two tokens and the record's
`lon` field receives the third argument's value while `icon_config` is
null. -/
theorem C10_no_empty_tokens :
    (∀ s : String, "" ∉ _tokenize_args s) ∧
    _tokenize_args "1,,'x'" = ["1", "'x'"] ∧
    (parse_setmap_from_html 0 "SetMap(1,,'x')" Option.none).map
        (fun l => l.map (fun st => (st.lat, st.lon, st.icon_config))) =
      .ok [(some (PyValue.int 1), some (PyValue.str "x"), Option.none)] := by
  refine ⟨?_, by decide, by rfl⟩
  intro s hmem
  unfold _tokenize_args at hmem
  rw [tokAux_eq_chunks] at hmem
  simp only [List.nil_append, List.reverse_nil, List.mem_map, List.mem_filter] at hmem
  obtain ⟨t, ⟨-, ht⟩, hmk⟩ := hmem
  have hte : t = [] := congrArg String.data hmk
  simp [hte] at ht

/-- C5 counterexample: the source replaces non-`<br>` tags by the EMPTY
string, not by a line break, so two labelled pairs separated only by a
non-`<br>` tag are merged onto ONE line and the first label captures the
rest of the merged line; the claim's "land on separate lines" fails. -/
theorem C5_counterexample :
    infoLines "Code: G1<i>Rain: 2" = ["Code: G1Rain: 2"] ∧
    infoLines "Code: G1<i>Rain: 2" ≠ ["Code: G1", "Rain: 2"] ∧
    (_parse_info_html (some "Code: G1<i>Rain: 2")).map (fun i => i.code) =
      some (some "G1Rain: 2") ∧
    (_parse_info_html (some "Code: G1<i>Rain: 2")).map (fun i => i.code) ≠
      some (some "G1") := by
  refine ⟨by decide, by decide, by decide, by decide⟩

/-- C5 amended: the extractor decodes HTML entities, normalizes `<br>` tags
to line breaks, DELETES every remaining HTML tag (so labelled pairs
separated only by a non-`<br>` tag are merged onto one line), and splits
into non-empty trimmed lines before the labelled-field search; a missing
(null or empty) blob yields the empty mapping, not an error. -/
theorem C5_info_extractor_amended :
    _parse_info_html Option.none = Option.none ∧
    _parse_info_html (some "") = Option.none ∧
    infoLines "Code: G1<br>Rain: 2" = ["Code: G1", "Rain: 2"] ∧
    (_parse_info_html (some "Code: G1<br>Rain: 2")).map (fun i => (i.code, i.rain)) =
      some (some "G1", some "2") ∧
    infoLines "Code: A&amp;B<br/>  Rain: 7 mm  " = ["Code: A&B", "Rain: 7 mm"] ∧
    (_parse_info_html (some "Code: A&amp;B<br/>  Rain: 7 mm  ")).map
        (fun i => (i.code, i.rain)) = some (some "A&B", some "7 mm") ∧
    infoLines "Code: G1<i>Rain: 2" = ["Code: G1Rain: 2"] := by
  refine ⟨rfl, rfl, by decide, by decide, by decide, by decide, by decide⟩

/-- C7 counterexample: `"-5".isdigit()` is false in Python, so the signed
integer-formatted token `"-5"` takes the float branch and coerces to the
FLOAT `-5.0`, not to the integer `-5`. -/
theorem C7_counterexample :
    _try_num "-5" = PyValue.float (PyFloat.finite (mkRat (-5) 1)) ∧
    _try_num "-5" ≠ PyValue.int (-5) := by
  refine ⟨by decide, by decide⟩

/-- C7 amended: coercion parses unsigned all-digit tokens as integers and
every other token with Python's `float`; on failure the token is returned
unchanged and no error is raised.  `"42"` gives the integer 42, `"4.5"` the
float 4.5, a SIGNED integer-formatted token such as `"-5"` the float -5.0,
and the quoted token `"'G1001'"` is unquoted by `_clean_str` to `G1001`. -/
theorem C7_coercion_amended :
    (∀ tok : String,
        (∃ n, _try_num tok = PyValue.int n) ∨
        (∃ f, _try_num tok = PyValue.float f) ∨
        _try_num tok = PyValue.str tok) ∧
    _try_num "42" = PyValue.int 42 ∧
    _try_num "4.5" = PyValue.float (PyFloat.finite (mkRat 9 2)) ∧
    _try_num "-5" = PyValue.float (PyFloat.finite (mkRat (-5) 1)) ∧
    _clean_str "'G1001'" = "G1001" ∧
    _try_num (_clean_str "'G1001'") = PyValue.str "G1001" := by
  refine ⟨?_, by decide, by decide, by decide, by decide, by decide⟩
  intro tok
  unfold _try_num _try_num_s PyScalar.toValue
  by_cases hd : isdigitL tok.data
  · rw [if_pos hd]
    exact Or.inl ⟨_, rfl⟩
  · rw [if_neg hd]
    cases pyFloat? tok with
    | some f => exact Or.inr (Or.inl ⟨f, rfl⟩)
    | none => exact Or.inr (Or.inr rfl)

/-- The claim's keyword priority table for the icon classifier. -/
def iconPriorityTable : List (List String × String) :=
  [(["online", "green", "_1"], "ONLINE"),
   (["offline", "red", "_0"], "OFFLINE"),
   (["timeout", "yellow", "orange"], "TIMEOUT"),
   (["disconnect", "grey", "gray"], "DISCONNECT"),
   (["repair", "maintenance"], "REPAIR")]

/-- First matching row of the priority table wins (input lower-cased). -/
def priorityClassify (low : String) : String :=
  iconPriorityTable.foldr
    (fun p acc => if p.1.any (fun k => strContains low k) then p.2 else acc)
    "UNKNOWN"

/-- `raingauge-<digits>` with a hyphen only, anchored at a position: the
numbered-icon guard pattern exactly as C8's text states it. -/
def hyphenRaingaugeAt (cs : List Char) : Bool :=
  match dropPrefixL "raingauge".data cs with
  | some ('-' :: d :: _) => digChar d
  | _ => false

/-- Search for the claim's literal (hyphen-only) guard pattern. -/
def hasHyphenRaingauge : List Char → Bool
  | [] => false
  | c :: rest => hyphenRaingaugeAt (c :: rest) || hasHyphenRaingauge rest

/-- The icon classifier exactly as C8's sentence reads: guard on
`raingauge-<digits>` (hyphen only), else the keyword priority cascade. -/
def claimIconClassify (fn : String) : String :=
  let low : String := ⟨lowerL fn.data⟩
  if hasHyphenRaingauge low.data then "UNKNOWN" else priorityClassify low

/-- C8 amended classifier: the guard pattern accepts a hyphen OR an
underscore between `raingauge` and the digits, as the source regex
`raingauge[_-]\d+` does. -/
def iconClassifySpec (fn : String) : String :=
  let low : String := ⟨lowerL fn.data⟩
  if hasRaingaugeNum low.data then "UNKNOWN" else priorityClassify low

/-- C8 counterexample: `raingauge_12.png` matches the source's
`raingauge[_-]\d+` guard and is classified UNKNOWN, while the claim's
hyphen-only pattern misses it and its `_1` substring would make the
claim's cascade return ONLINE. -/
theorem C8_counterexample :
    parse_status_from_icon (some (PyValue.str "raingauge_12.png")) = "UNKNOWN" ∧
    claimIconClassify "raingauge_12.png" = "ONLINE" ∧
    claimIconClassify "raingauge_12.png" ≠
      parse_status_from_icon (some (PyValue.str "raingauge_12.png")) := by
  refine ⟨by decide, by decide, by decide⟩

/-- The source's keyword cascade equals the claim's priority-table fold. -/
theorem iconKeywords_eq_priority (low : String) :
    iconKeywords low = priorityClassify low := by
  simp only [priorityClassify, iconPriorityTable, List.foldr_cons, List.foldr_nil,
    List.any_cons, List.any_nil, Bool.or_false, iconKeywords, Bool.or_assoc]

/-- C8 amended: the classifier returns UNKNOWN whenever the (lower-cased)
filename matches `raingauge[_-]<digits>` — hyphen or underscore — regardless
of other substrings, and otherwise applies the case-insensitive keyword
cascade online/green/`_1` → ONLINE, offline/red/`_0` → OFFLINE,
timeout/yellow/orange → TIMEOUT, disconnect/grey/gray → DISCONNECT,
repair/maintenance → REPAIR, else UNKNOWN; concretely
`icon_green_online.png` → ONLINE, `raingauge-12.png` → UNKNOWN, and a
keyword-free name → UNKNOWN. -/
theorem C8_icon_classifier_amended :
    (∀ fn : String,
        parse_status_from_icon (some (PyValue.str fn)) = iconClassifySpec fn) ∧
    parse_status_from_icon (some (PyValue.str "icon_green_online.png")) = "ONLINE" ∧
    parse_status_from_icon (some (PyValue.str "raingauge-12.png")) = "UNKNOWN" ∧
    parse_status_from_icon (some (PyValue.str "plainfile.jpg")) = "UNKNOWN" := by
  refine ⟨?_, by decide, by decide, by decide⟩
  intro fn
  by_cases h : fn = ""
  · subst h; rfl
  · have ht : optTruthy (some (PyValue.str fn)) = true := by
      simp [optTruthy, PyValue.truthy, h]
    unfold parse_status_from_icon iconClassifySpec
    rw [ht]
    simp [iconKeywords_eq_priority, PyValue.render]

/-- The number of `SetMap\s*\(` matches on a page. -/
def numSetMapMatches (html : String) : Nat := (setMapInners html).length

/-- C9's hypothesis: the first matched call's first coerced argument has
`str(...).lower() == "lat"`. -/
def headerFirst (html : String) : Bool :=
  match setMapInners html with
  | [] => false
  | i :: _ =>
      i ≠ "" &&
        (match parsedArgs i with
         | [] => false
         | p0 :: _ => String.mk (lowerL (p0.render).data) == "lat")

/-- Build one record per non-empty argument text: the extraction loop
without the header rule. -/
def buildAll (now : Int) (fleet : Option FleetTable) :
    List String → Except String (List StationRec)
  | [] => .ok []
  | i :: rest =>
      if i = "" then buildAll now fleet rest
      else do
        let st ← buildStation now fleet (parsedArgs i)
        let out ← buildAll now fleet rest
        pure (st :: out)

/-- With a non-zero counter the loop never header-skips again: it builds one
record per remaining non-empty argument text. -/
theorem processInners_all_counted (now : Int) (fleet : Option FleetTable)
    (l : List String) :
    ∀ count : Nat, count ≠ 0 →
      processInners now fleet l count = buildAll now fleet l := by
  induction l with
  | nil => intro count hc; rfl
  | cons i rest ih =>
      intro count hc
      by_cases hi : i = ""
      · simp only [processInners, buildAll, if_pos hi]
        exact ih count hc
      · cases hp : parsedArgs i with
        | nil =>
            simp only [processInners, buildAll, if_neg hi, hp]
            rw [ih (count + 1) (Nat.succ_ne_zero count)]
        | cons p0 ps =>
            simp only [processInners, buildAll, if_neg hi, hp, hc, false_and, if_false]
            rw [ih (count + 1) (Nat.succ_ne_zero count)]

/-- `buildAll` produces exactly one record per non-empty argument text. -/
theorem buildAll_ok_length (now : Int) (fleet : Option FleetTable) :
    ∀ (l : List String) (out : List StationRec),
      buildAll now fleet l = .ok out →
      out.length = (l.filter (fun i => i ≠ "")).length := by
  intro l
  induction l with
  | nil =>
      intro out h
      cases h
      rfl
  | cons i rest ih =>
      intro out h
      by_cases hi : i = ""
      · rw [buildAll, if_pos hi] at h
        rw [List.filter_cons]
        simp only [hi]
        simpa using ih out h
      · rw [buildAll, if_neg hi] at h
        cases hst : buildStation now fleet (parsedArgs i) with
        | error e => rw [hst] at h; simp [bind, Except.bind] at h
        | ok st =>
            rw [hst] at h
            cases hrest : buildAll now fleet rest with
            | error e =>
                rw [hrest] at h
                simp [bind, Except.bind] at h
            | ok outr =>
                rw [hrest] at h
                simp only [bind, Except.bind, pure, Except.pure] at h
                cases h
                rw [List.filter_cons]
                simp [hi, ih outr hrest]

/-- C9 counterexample: a page whose first matched call is the header and
whose second matched call has an EMPTY argument list — both are skipped, so
the output has two fewer records than the number of matched calls, not one
fewer as the claim states. -/
theorem C9_counterexample :
    headerFirst "SetMap('lat','lon') SetMap()" = true ∧
    numSetMapMatches "SetMap('lat','lon') SetMap()" = 2 ∧
    parse_setmap_from_html 0 "SetMap('lat','lon') SetMap()" Option.none = .ok [] ∧
    ¬((0 : Nat) = 2 - 1) := ⟨by decide, by decide, by rfl, by decide⟩

/-- C9 amended: when the first matched call's first coerced argument equals
`"lat"` case-insensitively, that call is discarded as a header (it never
appears in the output: the output is exactly the records built from the
REMAINING calls), and the output contains one fewer record than the number
of matched calls WITH NON-EMPTY ARGUMENT TEXT (empty-argument calls are
skipped independently of the header rule). -/
theorem C9_header_skip_amended :
    ∀ (now : Int) (fleet : Option FleetTable) (html : String),
      headerFirst html = true →
      (parse_setmap_from_html now html fleet =
        buildAll now fleet ((setMapInners html).drop 1)) ∧
      (∀ out, parse_setmap_from_html now html fleet = .ok out →
        out.length + 1 = ((setMapInners html).filter (fun i => i ≠ "")).length) := by
  intro now fleet html h
  unfold headerFirst at h
  cases hi : setMapInners html with
  | nil => rw [hi] at h; simp at h
  | cons i rest =>
      rw [hi] at h
      simp only [Bool.and_eq_true, decide_eq_true_eq] at h
      obtain ⟨h1, h2⟩ := h
      cases hp : parsedArgs i with
      | nil => rw [hp] at h2; simp at h2
      | cons p0 ps =>
          rw [hp] at h2
          simp only [beq_iff_eq] at h2
          have hmain : parse_setmap_from_html now html fleet =
              buildAll now fleet rest := by
            unfold parse_setmap_from_html
            rw [hi]
            simp only [processInners, if_neg h1, hp, h2, and_true, if_pos rfl]
            exact processInners_all_counted now fleet rest 1 (Nat.succ_ne_zero 0)
          constructor
          · rw [hmain]
            rfl
          · intro out hout
            rw [hmain] at hout
            have hlen := buildAll_ok_length now fleet rest out hout
            rw [List.filter_cons]
            simp [hlen, h1]

/-- The concrete page for C9's witness. -/
def c9WitnessPage : String := "SetMap('lat','lon') SetMap(7,8,'x')"

/-- Witness for C9's amended theorem, applied at a concrete page whose first
call is a header. -/
theorem C9_header_skip_amended_witness :
    parse_setmap_from_html 0 c9WitnessPage Option.none =
      buildAll 0 Option.none ((setMapInners c9WitnessPage).drop 1) :=
  (C9_header_skip_amended 0 Option.none c9WitnessPage (by decide)).1

/-! ## Claim-side deduplication (C2/C6) -/

/-- Claim-side replacement policy (C2): for code `c`, a later record with
that code replaces the kept one only when both report dates parse and the
new one is strictly later; otherwise (a parse failure on either side, or a
tie) the earlier record stays. -/
def keptStep (c : String) (acc : Option StationRec) (r : StationRec) :
    Option StationRec :=
  if resolveCode? r = some c then
    match acc with
    | Option.none => some r
    | some k =>
        match parseDateOpt k.date with
        | Option.none => some k
        | some e =>
            match parseDateOpt r.date with
            | Option.none => some k
            | some d => if e.toSeconds < d.toSeconds then some r else some k
  else acc

/-- The record C2's policy keeps for code `c`. -/
def keptFor (c : String) (rs : List StationRec) : Option StationRec :=
  rs.foldl (keptStep c) Option.none

/-- Invariant of the accumulator dictionary: distinct keys, and every entry
is keyed by its record's non-empty resolved code. -/
def OutInv (out : List (String × CleanRec)) : Prop :=
  (out.map Prod.fst).Nodup ∧
  ∀ p ∈ out, p.1 ≠ "" ∧ ∃ r, resolveCode? r = some p.1 ∧ p.2 = mkClean p.1 r

theorem lookupA_none_iff (out : List (String × CleanRec)) (c : String) :
    lookupA out c = Option.none ↔ ∀ p ∈ out, p.1 ≠ c := by
  induction out with
  | nil => simp [lookupA]
  | cons p rest ih =>
      by_cases hp : p.1 = c <;> simp [lookupA, hp, ih]

theorem lookupA_append (out : List (String × CleanRec)) (k c : String)
    (v : CleanRec) :
    lookupA (out ++ [(k, v)]) c =
      (match lookupA out c with
       | some x => some x
       | Option.none => if k = c then some v else Option.none) := by
  induction out with
  | nil => simp [lookupA]
  | cons p rest ih =>
      by_cases hp : p.1 = c
      · simp [lookupA, hp]
      · simpa [lookupA, hp] using ih

theorem lookupA_some_entry (out : List (String × CleanRec)) (c : String)
    (v : CleanRec) (h : lookupA out c = some v) :
    ∃ p ∈ out, p.1 = c ∧ p.2 = v := by
  induction out with
  | nil => simp [lookupA] at h
  | cons p rest ih =>
      by_cases hp : p.1 = c
      · rw [lookupA, if_pos hp] at h
        exact ⟨p, List.mem_cons_self p rest, hp, by simpa using h⟩
      · rw [lookupA, if_neg hp] at h
        obtain ⟨q, hq, hk, hv⟩ := ih h
        exact ⟨q, List.mem_cons_of_mem p hq, hk, hv⟩

theorem updateA_keys (out : List (String × CleanRec)) (k : String) (v : CleanRec) :
    (updateA out k v).map Prod.fst = out.map Prod.fst := by
  induction out with
  | nil => rfl
  | cons p rest ih =>
      by_cases hp : p.1 = k <;> simp [updateA, hp, ih]

theorem lookupA_updateA_ne (out : List (String × CleanRec)) (k c : String)
    (v : CleanRec) (h : c ≠ k) :
    lookupA (updateA out k v) c = lookupA out c := by
  induction out with
  | nil => rfl
  | cons p rest ih =>
      by_cases hp : p.1 = k
      · have : ¬(k = c) := fun hkc => h hkc.symm
        simp [updateA, lookupA, hp, this, ih]
      · by_cases hc : p.1 = c <;> simp [updateA, lookupA, hp, hc, h, ih]

theorem lookupA_updateA_eq (out : List (String × CleanRec)) (k : String)
    (v w : CleanRec) (h : lookupA out k = some w) :
    lookupA (updateA out k v) k = some v := by
  induction out with
  | nil => simp [lookupA] at h
  | cons p rest ih =>
      by_cases hp : p.1 = k
      · simp [updateA, lookupA, hp]
      · rw [lookupA, if_neg hp] at h
        simp [updateA, lookupA, hp, ih h]

theorem updateA_mem (out : List (String × CleanRec)) (k : String) (v : CleanRec)
    (p : String × CleanRec) (hp : p ∈ updateA out k v) :
    p ∈ out ∨ p = (k, v) := by
  induction out with
  | nil => simp [updateA] at hp
  | cons q rest ih =>
      rw [updateA] at hp
      rcases List.mem_cons.mp hp with h1 | h2
      · by_cases hq : q.1 = k
        · rw [if_pos hq] at h1
          exact Or.inr h1
        · rw [if_neg hq] at h1
          exact Or.inl (h1 ▸ List.mem_cons_self q rest)
      · rcases ih h2 with h3 | h3
        · exact Or.inl (List.mem_cons_of_mem q h3)
        · exact Or.inr h3

/-- An entry found under code `c` in an invariant-satisfying dictionary is
the cleaned image of its own base record. -/
theorem lookupA_inv_base (out : List (String × CleanRec)) (c : String)
    (v : CleanRec) (hinv : OutInv out) (h : lookupA out c = some v) :
    v = mkClean c v.base := by
  obtain ⟨p, hmem, hkey, hval⟩ := lookupA_some_entry out c v h
  obtain ⟨-, r, -, hpr⟩ := hinv.2 p hmem
  have : v = mkClean c r := by rw [← hval, hpr, hkey]
  rw [this]
  rfl

/-- Master invariant of the `clean_data` loop: on successful return the
dictionary has distinct non-empty codes, every entry originates from input
records, and the entry stored for each code is exactly the record C2's
replacement policy keeps (folded from the incoming accumulator). -/
theorem cleanAux_spec :
    ∀ (rs : List StationRec) (out res : List (String × CleanRec)),
      cleanAux rs out = .ok res → OutInv out →
      OutInv res ∧
      (∀ p ∈ res, p ∈ out ∨
        ∃ r ∈ rs, resolveCode? r = some p.1 ∧ p.2 = mkClean p.1 r) ∧
      (∀ c, c ≠ "" →
        lookupA res c =
          (rs.foldl (keptStep c) ((lookupA out c).map CleanRec.base)).map (mkClean c)) := by
  intro rs
  induction rs with
  | nil =>
      intro out res hok hinv
      rw [cleanAux] at hok
      cases hok
      refine ⟨hinv, fun p hp => Or.inl hp, ?_⟩
      intro c hc
      rw [List.foldl_nil]
      cases hl : lookupA out c with
      | none => rfl
      | some v =>
          simp only [Option.map_some']
          rw [← lookupA_inv_base out c v hinv hl]
  | cons r rest ih =>
      intro out res hok hinv
      rw [cleanAux] at hok
      cases hrc : resolveCode? r with
      | none => simp [hrc] at hok
      | some code =>
          simp only [hrc] at hok
          by_cases hce : code = ""
          · rw [if_pos hce] at hok
            obtain ⟨hinv', hmem', hfold'⟩ := ih out res hok hinv
            refine ⟨hinv', ?_, ?_⟩
            · intro p hp
              rcases hmem' p hp with h | ⟨r', hr', hrc', hval⟩
              · exact Or.inl h
              · exact Or.inr ⟨r', List.mem_cons_of_mem r hr', hrc', hval⟩
            · intro c hc
              rw [List.foldl_cons]
              have hstep : keptStep c ((lookupA out c).map CleanRec.base) r
                  = (lookupA out c).map CleanRec.base := by
                unfold keptStep
                rw [hrc, hce]
                simp [Ne.symm hc]
              rw [hstep]
              exact hfold' c hc
          · rw [if_neg hce] at hok
            cases hlk : lookupA out code with
            | none =>
                simp only [hlk] at hok
                have hinv2 : OutInv (out ++ [(code, mkClean code r)]) := by
                  constructor
                  · rw [List.map_append]
                    simp only [List.map_cons, List.map_nil]
                    rw [List.nodup_append]
                    refine ⟨hinv.1, List.nodup_singleton _, ?_⟩
                    intro a ha hb
                    simp only [List.mem_singleton] at hb
                    subst hb
                    rw [lookupA_none_iff] at hlk
                    obtain ⟨p, hp, hpk⟩ := List.mem_map.mp ha
                    exact hlk p hp hpk
                  · intro p hp
                    rcases List.mem_append.mp hp with h | h
                    · exact hinv.2 p h
                    · simp only [List.mem_singleton] at h
                      subst h
                      exact ⟨hce, r, hrc, rfl⟩
                obtain ⟨hinv', hmem', hfold'⟩ := ih _ res hok hinv2
                refine ⟨hinv', ?_, ?_⟩
                · intro p hp
                  rcases hmem' p hp with h | ⟨r', hr', hrc', hval⟩
                  · rcases List.mem_append.mp h with h2 | h2
                    · exact Or.inl h2
                    · simp only [List.mem_singleton] at h2
                      subst h2
                      exact Or.inr ⟨r, List.mem_cons_self r rest, hrc, rfl⟩
                  · exact Or.inr ⟨r', List.mem_cons_of_mem r hr', hrc', hval⟩
                · intro c hc
                  rw [List.foldl_cons, hfold' c hc]
                  have hacc : (lookupA (out ++ [(code, mkClean code r)]) c).map CleanRec.base
                      = keptStep c ((lookupA out c).map CleanRec.base) r := by
                    rw [lookupA_append]
                    by_cases hcc : code = c
                    · subst hcc
                      rw [hlk]
                      unfold keptStep
                      rw [hrc]
                      simp [mkClean]
                    · have hne2 : ¬(some code = some c) :=
                        fun hh => hcc (Option.some.inj hh)
                      cases hoc : lookupA out c with
                      | none =>
                          unfold keptStep
                          rw [hrc]
                          simp [hcc, hne2]
                      | some x =>
                          unfold keptStep
                          rw [hrc]
                          simp [hcc, hne2]
                  rw [hacc]
            | some stored =>
                simp only [hlk] at hok
                have haccS : (lookupA out code).map CleanRec.base = some stored.base := by
                  rw [hlk]; rfl
                cases hdt : parseDateOpt r.date with
                | none =>
                    simp only [hdt] at hok
                    obtain ⟨hinv', hmem', hfold'⟩ := ih out res hok hinv
                    refine ⟨hinv', ?_, ?_⟩
                    · intro p hp
                      rcases hmem' p hp with h | ⟨r', hr', hrc', hval⟩
                      · exact Or.inl h
                      · exact Or.inr ⟨r', List.mem_cons_of_mem r hr', hrc', hval⟩
                    · intro c hc
                      rw [List.foldl_cons, hfold' c hc]
                      have hstep : keptStep c ((lookupA out c).map CleanRec.base) r
                          = (lookupA out c).map CleanRec.base := by
                        unfold keptStep
                        rw [hrc]
                        by_cases hcc : code = c
                        · subst hcc
                          rw [haccS]
                          simp [hdt]
                          cases h2 : parseDateOpt stored.base.date <;> simp [h2]
                        · have hne2 : ¬(some code = some c) :=
                            fun hh => hcc (Option.some.inj hh)
                          simp [hne2]
                      rw [hstep]
                | some d =>
                    simp only [hdt] at hok
                    cases hde : parseDateOpt stored.base.date with
                    | none =>
                        simp only [hde] at hok
                        obtain ⟨hinv', hmem', hfold'⟩ := ih out res hok hinv
                        refine ⟨hinv', ?_, ?_⟩
                        · intro p hp
                          rcases hmem' p hp with h | ⟨r', hr', hrc', hval⟩
                          · exact Or.inl h
                          · exact Or.inr ⟨r', List.mem_cons_of_mem r hr', hrc', hval⟩
                        · intro c hc
                          rw [List.foldl_cons, hfold' c hc]
                          have hstep : keptStep c ((lookupA out c).map CleanRec.base) r
                              = (lookupA out c).map CleanRec.base := by
                            unfold keptStep
                            rw [hrc]
                            by_cases hcc : code = c
                            · subst hcc
                              rw [haccS]
                              simp [hde]
                            · have hne2 : ¬(some code = some c) :=
                                fun hh => hcc (Option.some.inj hh)
                              simp [hne2]
                          rw [hstep]
                    | some e =>
                        simp only [hde] at hok
                        by_cases haw : e.aware ≠ d.aware
                        · rw [if_pos haw] at hok
                          exact absurd hok (by simp)
                        · rw [if_neg haw] at hok
                          by_cases hlt : e.toSeconds < d.toSeconds
                          · rw [if_pos hlt] at hok
                            have hinv2 : OutInv (updateA out code (mkClean code r)) := by
                              constructor
                              · rw [updateA_keys]
                                exact hinv.1
                              · intro p hp
                                rcases updateA_mem out code (mkClean code r) p hp with h | h
                                · exact hinv.2 p h
                                · subst h
                                  exact ⟨hce, r, hrc, rfl⟩
                            obtain ⟨hinv', hmem', hfold'⟩ := ih _ res hok hinv2
                            refine ⟨hinv', ?_, ?_⟩
                            · intro p hp
                              rcases hmem' p hp with h | ⟨r', hr', hrc', hval⟩
                              · rcases updateA_mem out code (mkClean code r) p h with h2 | h2
                                · exact Or.inl h2
                                · subst h2
                                  exact Or.inr ⟨r, List.mem_cons_self r rest, hrc, rfl⟩
                              · exact Or.inr ⟨r', List.mem_cons_of_mem r hr', hrc', hval⟩
                            · intro c hc
                              rw [List.foldl_cons, hfold' c hc]
                              have hacc : (lookupA (updateA out code (mkClean code r)) c).map CleanRec.base
                                  = keptStep c ((lookupA out c).map CleanRec.base) r := by
                                by_cases hcc : code = c
                                · subst hcc
                                  rw [lookupA_updateA_eq out code (mkClean code r) stored hlk]
                                  unfold keptStep
                                  rw [hrc, haccS]
                                  simp [hde, hdt, hlt, mkClean]
                                · rw [lookupA_updateA_ne out code c (mkClean code r) (fun h => hcc h.symm)]
                                  unfold keptStep
                                  rw [hrc]
                                  have hne2 : ¬(some code = some c) :=
                                    fun hh => hcc (Option.some.inj hh)
                                  simp [hne2]
                              rw [hacc]
                          · rw [if_neg hlt] at hok
                            obtain ⟨hinv', hmem', hfold'⟩ := ih out res hok hinv
                            refine ⟨hinv', ?_, ?_⟩
                            · intro p hp
                              rcases hmem' p hp with h | ⟨r', hr', hrc', hval⟩
                              · exact Or.inl h
                              · exact Or.inr ⟨r', List.mem_cons_of_mem r hr', hrc', hval⟩
                            · intro c hc
                              rw [List.foldl_cons, hfold' c hc]
                              have hstep : keptStep c ((lookupA out c).map CleanRec.base) r
                                  = (lookupA out c).map CleanRec.base := by
                                unfold keptStep
                                rw [hrc]
                                by_cases hcc : code = c
                                · subst hcc
                                  rw [haccS]
                                  simp [hde, hdt, hlt]
                                · have hne2 : ¬(some code = some c) :=
                                    fun hh => hcc (Option.some.inj hh)
                                  simp [hne2]
                              rw [hstep]

/-- The output list's per-code search coincides with the dictionary lookup
when every value carries its own key. -/
theorem values_find? (res : List (String × CleanRec))
    (hkeys : ∀ p ∈ res, p.2.station_code = p.1) (c : String) :
    (res.map Prod.snd).find? (fun cr => cr.station_code == c) = lookupA res c := by
  induction res with
  | nil => rfl
  | cons p rest ih =>
      have hp := hkeys p (List.mem_cons_self p rest)
      by_cases hc : p.1 = c
      · have hb : (p.2.station_code == c) = true := by rw [hp, hc]; simp
        simp [List.find?, lookupA, hb, hc]
      · have hb : (p.2.station_code == c) = false := by rw [hp]; simpa using hc
        simp only [List.map_cons, List.find?, hb, lookupA, if_neg hc]
        exact ih (fun q hq => hkeys q (List.mem_cons_of_mem p hq))

/-- C2: deduplication keeps at most one record per station code, and the
record stored for a code is exactly the fold of the claim's replacement
policy over the input: a later record replaces the kept one only when both
report dates parse and the new one is strictly later; a parse failure on
either side, or a tie, keeps the earlier record. -/
theorem C2_dedup_keeps_latest :
    ∀ (rs : List StationRec) (out : List CleanRec),
      clean_data rs = .ok out →
      (out.map (fun cr => cr.station_code)).Nodup ∧
      (∀ c : String, c ≠ "" →
        out.find? (fun cr => cr.station_code == c) =
          (keptFor c rs).map (mkClean c)) := by
  intro rs out hok
  unfold clean_data at hok
  cases hca : cleanAux rs [] with
  | error e => rw [hca] at hok; simp [Except.map] at hok
  | ok res =>
      rw [hca] at hok
      simp only [Except.map] at hok
      have hout : out = res.map Prod.snd := by cases hok; rfl
      obtain ⟨hinv, hmem, hfold⟩ :=
        cleanAux_spec rs [] res hca ⟨List.nodup_nil, by simp⟩
      have hkeys : ∀ p ∈ res, p.2.station_code = p.1 := by
        intro p hp
        obtain ⟨-, r, -, hpr⟩ := hinv.2 p hp
        rw [hpr]
        rfl
      subst hout
      constructor
      · rw [List.map_map]
        have heq : res.map ((fun cr => cr.station_code) ∘ Prod.snd) = res.map Prod.fst :=
          List.map_congr_left (fun p hp => hkeys p hp)
        rw [heq]
        exact hinv.1
      · intro c hc
        rw [values_find? res hkeys c, hfold c hc]
        rfl

/-- C2's witness records: same code, the later-seen one strictly newer. -/
def c2recOlder : StationRec :=
  { code := some (PyValue.str "G1001"), date := some "01/01/2024 10:00",
    rain := some "3 mm" }

/-- See `c2recOlder`. -/
def c2recNewer : StationRec :=
  { code := some (PyValue.str "G1001"), date := some "01/01/2024 12:00",
    rain := some "4 mm" }

/-- Witness for C2: on two records with the same code, the strictly newer
one is kept, as the theorem's fold predicts. -/
theorem C2_dedup_keeps_latest_witness :
    clean_data [c2recOlder, c2recNewer] = .ok [mkClean "G1001" c2recNewer] ∧
    (([mkClean "G1001" c2recNewer].map (fun cr => cr.station_code)).Nodup ∧
     ∀ c : String, c ≠ "" →
       [mkClean "G1001" c2recNewer].find? (fun cr => cr.station_code == c) =
         (keptFor c [c2recOlder, c2recNewer]).map (mkClean c)) :=
  ⟨by rfl,
   C2_dedup_keeps_latest [c2recOlder, c2recNewer] [mkClean "G1001" c2recNewer] (by rfl)⟩

/-- C6: every final record carries the non-empty resolved code of an input
record it was cleaned from; records whose code resolves to the empty string
(absent, empty, or whitespace-only code and alias) are excluded — but only
at the deduplication boundary: the extractor still emits such records, as
the concrete codeless page shows. -/
theorem C6_code_invariant :
    (∀ (rs : List StationRec) (out : List CleanRec),
        clean_data rs = .ok out →
        (∀ cr ∈ out, cr.station_code ≠ "" ∧
          ∃ r ∈ rs, resolveCode? r = some cr.station_code ∧
            cr = mkClean cr.station_code r) ∧
        (∀ r ∈ rs, resolveCode? r = some "" → ∀ cr ∈ out, cr.base ≠ r)) ∧
    (∃ l, parse_setmap_from_html 0 "SetMap(1,2)" Option.none = .ok l ∧
        l.length = 1 ∧ (∀ r ∈ l, resolveCode? r = some "") ∧
        clean_data l = .ok []) := by
  constructor
  · intro rs out hok
    unfold clean_data at hok
    cases hca : cleanAux rs [] with
    | error e => rw [hca] at hok; simp [Except.map] at hok
    | ok res =>
        rw [hca] at hok
        simp only [Except.map] at hok
        have hout : out = res.map Prod.snd := by cases hok; rfl
        obtain ⟨hinv, hmem, -⟩ :=
          cleanAux_spec rs [] res hca ⟨List.nodup_nil, by simp⟩
        subst hout
        constructor
        · intro cr hcr
          obtain ⟨p, hp, hpcr⟩ := List.mem_map.mp hcr
          obtain ⟨hne, -⟩ := hinv.2 p hp
          rcases hmem p hp with habs | ⟨r, hr, hrc, hval⟩
          · simp at habs
          · have hsc : cr.station_code = p.1 := by rw [← hpcr, hval]; rfl
            refine ⟨hsc ▸ hne, r, hr, ?_, ?_⟩
            · rw [hsc]; exact hrc
            · rw [hsc, ← hpcr, hval]
        · intro r hr hr0 cr hcr
          obtain ⟨p, hp, hpcr⟩ := List.mem_map.mp hcr
          rcases hmem p hp with habs | ⟨r', hr', hrc', hval'⟩
          · simp at habs
          · obtain ⟨hne, -⟩ := hinv.2 p hp
            intro hbase
            have hb2 : p.2.base = r' := by rw [hval']; rfl
            rw [← hpcr] at hbase
            rw [hb2] at hbase
            rw [hbase] at hrc'
            rw [hr0] at hrc'
            exact hne (Option.some.inj hrc').symm
  · refine ⟨_, rfl, rfl, ?_, rfl⟩
    decide

/-- C6's witness record. -/
def c6wRec : StationRec :=
  { code := some (PyValue.str "G7"), date := some "02/03/2024 08:00" }

/-- Witness for C6 applied at a single coded record. -/
theorem C6_code_invariant_witness :
    clean_data [c6wRec] = .ok [mkClean "G7" c6wRec] ∧
    (∀ cr ∈ [mkClean "G7" c6wRec], cr.station_code ≠ "" ∧
      ∃ r ∈ [c6wRec], resolveCode? r = some cr.station_code ∧
        cr = mkClean cr.station_code r) :=
  ⟨by rfl, (C6_code_invariant.1 [c6wRec] [mkClean "G7" c6wRec] (by rfl)).1⟩

/-- C4's failing input, first record: its date parses via the `UTC` format,
so `_parse_date` leaves it NAIVE (the tz-patch is skipped exactly when the
raw string contains `"UTC"`). -/
def c4recNaive : StationRec :=
  { code := some (PyValue.str "G1"), date := some "01/01/2024 10:00 UTC" }

/-- C4's failing input, second record: same code, plain format, so
`_parse_date` attaches `timezone.utc` and the datetime is AWARE. -/
def c4recAware : StationRec :=
  { code := some (PyValue.str "G1"), date := some "01/01/2024 11:00" }

/-- C4: the claim that no input can make the core raise is broken by the
code: deduplicating two same-code records whose parseable dates mix a
`"... UTC"`-suffixed string (parsed NAIVE) with a plain one (parsed AWARE)
makes `existing_dt < dt` compare an offset-naive and an offset-aware
datetime, which raises `TypeError` out of `clean_data`. -/
theorem C4_mixed_awareness_raises :
    clean_data [c4recNaive, c4recAware] =
      .error "TypeError: comparing offset-naive and offset-aware datetimes" ∧
    _parse_date "01/01/2024 10:00 UTC" =
      some { year := 2024, month := 1, day := 1, hour := 10, minute := 0,
             aware := false } ∧
    _parse_date "01/01/2024 11:00" =
      some { year := 2024, month := 1, day := 1, hour := 11, minute := 0,
             aware := true } :=
  ⟨by rfl, by rfl, by rfl⟩

end RainGauge
